import Mathlib

/-!
# Volcano job controller utilities

A shallow embedding of `pkg/controllers/job/job_controller_util.go`:
the policy engine (`applyPolicies`), the condition / phase bookkeeping
(`UpdateJobPhase`, `SetCondition`, `filterOutCondition`), pod synthesis
(`createJobPod`, `MakePodName`), resource aggregation (`addResourceList`) and the
priority order of tasks (`TasksPriority`).

Go string types (`Action`, `Event`, `JobPhase`, `JobConditionType`,
`ConditionStatus`) are Lean strings, `int32` values are integers (they are only
compared, never added), slices are lists, nilable pointers are options.
Every reading of the wall clock is an explicit argument.
-/

namespace Volcano

/-! ## Data model -/

/-- Go `vkv1.Action`, a string type. -/
abbrev Action := String

/-- Go `vkv1.Event`, a string type. -/
abbrev Event := String

/-- Go `vkv1.JobPhase`, a string type. -/
abbrev JobPhase := String

/-- Go `vkv1.JobConditionType`, a string type. -/
abbrev JobConditionType := String

/-- Go `v1.ConditionStatus`, a string type. -/
abbrev ConditionStatus := String

/-- Go `metav1.Time`, as a count of clock ticks since the zero instant. -/
abbrev Time := Nat

/-- Modelled from the spec: the constant `vkv1.SyncJobAction` (declared in the API
package, which is not part of the sources at hand); the default action "SyncJob". -/
def SyncJobAction : Action := "SyncJob"

/-- Modelled from the spec: the constant `vkv1.RestartJobAction`, the action "RestartJob". -/
def RestartJobAction : Action := "RestartJob"

/-- Modelled from the spec: the constant `vkv1.AbortJobAction`, the action "AbortJob". -/
def AbortJobAction : Action := "AbortJob"

/-- Modelled from the spec: the constant `vkv1.OutOfSyncEvent`, the reserved
"out-of-sync" event. -/
def OutOfSyncEvent : Event := "OutOfSync"

/-- Modelled from the spec: the constant `vkv1.AnyEvent`, the wildcard "any event". -/
def AnyEvent : Event := "*"

/-- Go `v1alpha1.LifecyclePolicy`: `ExitCode` is a `*int32`. -/
structure LifecyclePolicy where
  Action : Volcano.Action := ""
  Event : Volcano.Event := ""
  Events : List Volcano.Event := []
  ExitCode : Option Int := none
deriving DecidableEq

/-- Go `vkv1.TaskSpec`, the fields read by the policy engine. -/
structure TaskSpec where
  Name : String := ""
  Policies : List LifecyclePolicy := []
deriving DecidableEq

/-- Go `apis.Request`: `ExitCode` and `JobVersion` are plain `int32` values. -/
structure Request where
  TaskName : String := ""
  Event : Volcano.Event := ""
  ExitCode : Int := 0
  Action : Volcano.Action := ""
  JobVersion : Int := 0
deriving DecidableEq

/-- Go `vkv1.JobCondition`; the field `Type` is written `Type_`, `Type` being reserved. -/
structure JobCondition where
  Type_ : JobConditionType := ""
  Status : ConditionStatus := ""
  LastUpdateTime : Time := 0
  LastTransitionTime : Time := 0
  Reason : String := ""
  Message : String := ""
deriving DecidableEq

/-- Go `vkv1.JobStatus`; `StartTime` and `CompletionTime` are `*metav1.Time`,
`ControlledResources` is a `map[string]string` kept as an association list. -/
structure JobStatus where
  Phase : JobPhase := ""
  Conditions : List JobCondition := []
  StartTime : Option Time := none
  CompletionTime : Option Time := none
  Version : Int := 0
  ControlledResources : List (String × String) := []
deriving DecidableEq

/-- Go `v1.PersistentVolumeClaimSpec` of the Kubernetes core API; only its presence in
a `VolumeSpec` is read. -/
structure PersistentVolumeClaimSpec where
  StorageClassName : String := ""
deriving DecidableEq

/-- Go `vkv1.VolumeSpec`; `VolumeClaim` is a `*v1.PersistentVolumeClaimSpec`. -/
structure VolumeSpec where
  MountPath : String := ""
  VolumeClaimName : String := ""
  VolumeClaim : Option PersistentVolumeClaimSpec := none
deriving DecidableEq

/-- Go `v1.VolumeMount`, the fields set by `createJobPod`. -/
structure VolumeMount where
  Name : String := ""
  MountPath : String := ""
deriving DecidableEq

/-- Go `v1.Container`, the fields read by `createJobPod`. -/
structure Container where
  Name : String := ""
  VolumeMounts : List VolumeMount := []
deriving DecidableEq

/-- Go `v1.EmptyDirVolumeSource`, built with no field set. -/
structure EmptyDirVolumeSource where
  Medium : String := ""
deriving DecidableEq

/-- Go `v1.PersistentVolumeClaimVolumeSource`. -/
structure PersistentVolumeClaimVolumeSource where
  ClaimName : String := ""
deriving DecidableEq

/-- Go `v1.Volume`; the two volume sources are pointers. -/
structure Volume where
  Name : String := ""
  EmptyDir : Option EmptyDirVolumeSource := none
  PersistentVolumeClaim : Option PersistentVolumeClaimVolumeSource := none
deriving DecidableEq

/-- Go `v1.PodSpec`, the fields read by `createJobPod`. -/
structure PodSpec where
  SchedulerName : String := ""
  Volumes : List Volume := []
  Containers : List Container := []
deriving DecidableEq

/-- Go `v1.PodTemplateSpec`; `Labels` and `Annotations` are `map[string]string`, kept as
association lists. -/
structure PodTemplateSpec where
  Name : String := ""
  Labels : List (String × String) := []
  Annotations : List (String × String) := []
  Spec : PodSpec := {}
deriving DecidableEq

/-- Go `metav1.OwnerReference`; `Controller` and `BlockOwnerDeletion` are `*bool`. -/
structure OwnerReference where
  APIVersion : String := ""
  Kind : String := ""
  Name : String := ""
  UID : String := ""
  Controller : Option Bool := none
  BlockOwnerDeletion : Option Bool := none
deriving DecidableEq

/-- Go `v1.Pod`, the fields set by `createJobPod`. -/
structure Pod where
  Name : String := ""
  Namespace : String := ""
  OwnerReferences : List OwnerReference := []
  Labels : List (String × String) := []
  Annotations : List (String × String) := []
  Spec : PodSpec := {}
deriving DecidableEq

/-- Go `vkv1.JobSpec`, the fields read by the policy engine and by `createJobPod`. -/
structure JobSpec where
  SchedulerName : String := ""
  Volumes : List VolumeSpec := []
  Tasks : List TaskSpec := []
  Policies : List LifecyclePolicy := []
deriving DecidableEq

/-- Go `vkv1.Job`. -/
structure Job where
  Name : String := ""
  Namespace : String := ""
  UID : String := ""
  Spec : JobSpec := {}
  Status : JobStatus := {}
deriving DecidableEq

/-! ## Policy engine -/

/-- Go `getEventlist`: the `Events` list, with the singular `Event` appended when it is
non-empty. -/
def getEventlist (policy : LifecyclePolicy) : List Event :=
  let policyEventsList := policy.Events
  if policy.Event.length > 0 then policyEventsList ++ [policy.Event] else policyEventsList

/-- Go `checkEventExist`: a linear scan for `reqEvent`. -/
def checkEventExist : List Event → Event → Bool
  | [], _ => false
  | event :: rest, reqEvent => if event = reqEvent then true else checkEventExist rest reqEvent

/-- The loop `for _, policy := range policies` of `applyPolicies` (the body is the same
for the task-level and the job-level loop): `some a` when the loop returns `a`,
`none` when it runs to its end. -/
def policyLoop (req : Request) : List LifecyclePolicy → Option Action
  | [] => none
  | policy :: rest =>
    let policyEvents := getEventlist policy
    if policyEvents.length > 0 ∧ req.Event.length > 0 ∧
        (checkEventExist policyEvents req.Event || checkEventExist policyEvents AnyEvent) = true then
      some policy.Action
    else if policy.ExitCode ≠ none ∧ policy.ExitCode = some req.ExitCode then
      some policy.Action
    else policyLoop req rest

/-- The loop `for _, task := range job.Spec.Tasks` of `applyPolicies`: the policies of
the first task named `req.TaskName` are scanned, then the loop is left (`break`). -/
def taskLoop (req : Request) : List TaskSpec → Option Action
  | [] => none
  | task :: rest =>
    if task.Name = req.TaskName then policyLoop req task.Policies
    else taskLoop req rest

/-- Go `applyPolicies`. -/
def applyPolicies (job : Job) (req : Request) : Action :=
  if req.Action.length ≠ 0 then req.Action
  else if req.Event = OutOfSyncEvent then SyncJobAction
  else if req.JobVersion < job.Status.Version then SyncJobAction
  else
    match (if req.TaskName.length ≠ 0 then taskLoop req job.Spec.Tasks else none) with
    | some action => action
    | none =>
      match policyLoop req job.Spec.Policies with
      | some action => action
      | none => SyncJobAction

/-! ## Conditions and phases -/

/-- Go `v1.ConditionTrue` of the Kubernetes core API. -/
def ConditionTrue : ConditionStatus := "True"

/-- Go `v1.ConditionFalse` of the Kubernetes core API. -/
def ConditionFalse : ConditionStatus := "False"

/-- Modelled from the spec: the constant `vkv1.JobCreated` (declared in the API package,
which is not part of the sources at hand), the condition type "Created". -/
def JobCreated : JobConditionType := "Created"

/-- Modelled from the spec: the constant `vkv1.JobScheduled`, the condition type "Scheduled". -/
def JobScheduled : JobConditionType := "Scheduled"

/-- Modelled from the spec: the constant `vkv1.JobSucceed`, the condition type "Succeeded". -/
def JobSucceed : JobConditionType := "Succeeded"

/-- Modelled from the spec: the constant `vkv1.JobStopped`, the condition type "Stopped". -/
def JobStopped : JobConditionType := "Stopped"

/-- Modelled from the spec: the constant `vkv1.JobRestarting`, the condition type "Restarting". -/
def JobRestarting : JobConditionType := "Restarting"

/-- Modelled from the spec: the constant `vkv1.Pending`, the phase "Pending". -/
def Pending : JobPhase := "Pending"

/-- Modelled from the spec: the constant `vkv1.Inqueue`, the phase "Inqueue". -/
def Inqueue : JobPhase := "Inqueue"

/-- Modelled from the spec: the constant `vkv1.Running`, the phase "Running". -/
def Running : JobPhase := "Running"

/-- Modelled from the spec: the constant `vkv1.Completed`, the phase "Completed". -/
def Completed : JobPhase := "Completed"

/-- Modelled from the spec: the constant `vkv1.Failed`, the phase "Failed". -/
def Failed : JobPhase := "Failed"

/-- Modelled from the spec: the constant `vkv1.Terminated`, the phase "Terminated". -/
def Terminated : JobPhase := "Terminated"

/-- Modelled from the spec: the constant `vkv1.Aborted`, the phase "Aborted". -/
def Aborted : JobPhase := "Aborted"

/-- Modelled from the spec: the constant `vkv1.Restarting`, the phase "Restarting". -/
def Restarting : JobPhase := "Restarting"

/-- Go `(*metav1.Time).IsZero` of the Kubernetes API machinery: a nil pointer, or the
zero instant. -/
def IsZero : Option Time → Bool
  | none => true
  | some t => t == 0

/-- Go `NewStateCondition`; `t1` and `t2` are its two readings of `metav1.Now()`. -/
def NewStateCondition (conditionType : JobConditionType) (reason message : String)
    (t1 t2 : Time) : JobCondition :=
  { Type_ := conditionType
    Status := ConditionTrue
    LastUpdateTime := t1
    LastTransitionTime := t2
    Reason := reason
    Message := message }

/-- The loop of Go `HasCondition` over the condition sequence. -/
def hasConditionLoop (condType : JobConditionType) : List JobCondition → Bool
  | [] => false
  | condition :: rest =>
    if condition.Type_ = condType ∧ condition.Status = ConditionTrue then true
    else hasConditionLoop condType rest

/-- Go `HasCondition`. -/
def HasCondition (status : JobStatus) (condType : JobConditionType) : Bool :=
  hasConditionLoop condType status.Conditions

/-- The loop of Go `GetCondition` over the condition sequence. -/
def getConditionLoop (condType : JobConditionType) : List JobCondition → Option JobCondition
  | [] => none
  | condition :: rest =>
    if condition.Type_ = condType then some condition
    else getConditionLoop condType rest

/-- Go `GetCondition`: the first entry of the given type, or nil. -/
def GetCondition (status : JobStatus) (condType : JobConditionType) : Option JobCondition :=
  getConditionLoop condType status.Conditions

/-- The loop of Go `filterOutCondition`; `now k` is the reading of `metav1.Now()` in the
iteration that visits the `k`-th remaining entry. -/
def filterLoop (currentCondition : JobCondition) :
    (Nat → Time) → List JobCondition → List JobCondition
  | _, [] => []
  | now, condition :: rest =>
    let tail := filterLoop currentCondition (fun k => now (k + 1)) rest
    if condition.Type_ = currentCondition.Type_ then tail
    else if (currentCondition.Type_ = JobRestarting ∧ currentCondition.Status = ConditionTrue) ∧
        (condition.Type_ = JobScheduled ∨ condition.Type_ = JobSucceed ∨
          condition.Type_ = JobStopped) then tail
    else if condition.Type_ = JobRestarting ∧ condition.Status = ConditionTrue ∧
        currentCondition.Type_ ≠ condition.Type_ then
      { condition with
        Status := ConditionFalse
        LastUpdateTime := now 0
        Message := ""
        Reason := "Job finished restarting." } :: tail
    else condition :: tail

/-- Go `filterOutCondition`; `now k` is the clock reading in the `k`-th iteration. -/
def filterOutCondition (states : JobStatus) (currentCondition : JobCondition)
    (now : Nat → Time) : List JobCondition :=
  filterLoop currentCondition now states.Conditions

/-- Go `SetCondition`; the status is returned instead of updated in place, and `now`
is the clock read by `filterOutCondition`. -/
def SetCondition (status : JobStatus) (condition : JobCondition) (now : Nat → Time) :
    JobStatus :=
  match GetCondition status condition.Type_ with
  | some currentCond =>
    if currentCond.Status = condition.Status ∧ currentCond.Reason = condition.Reason then
      status
    else
      let condition :=
        if currentCond.Status = condition.Status then
          { condition with LastTransitionTime := currentCond.LastTransitionTime }
        else condition
      let newConditions := filterOutCondition status condition now
      { status with Conditions := newConditions ++ [condition] }
  | none =>
    let newConditions := filterOutCondition status condition now
    { status with Conditions := newConditions ++ [condition] }

/-- The clock readings of one call of `UpdateJobPhase`: the two of `NewStateCondition`,
those of `filterOutCondition`, and the `time.Now()` of `UpdateJobPhase` itself, which
is the current time and so never the zero instant. -/
structure Clock where
  condUpdate : Time := 0
  condTransition : Time := 0
  filter : Nat → Time := fun _ => 0
  now : Time
  now_ne_zero : now ≠ 0 := by decide

/-- The `switch newphase` statement that opens Go `UpdateJobPhase` (lines 254-270):
the first case that lists `newphase` sets its condition, no case means no change. -/
def phaseSwitch (status : JobStatus) (newphase : JobPhase) (message : String)
    (clk : Clock) : JobStatus :=
  if newphase = Pending ∨ newphase = Inqueue then
    SetCondition status
      (NewStateCondition JobCreated "Job created" message clk.condUpdate clk.condTransition)
      clk.filter
  else if newphase = Running then
    SetCondition status
      (NewStateCondition JobScheduled "Job successfully scheduled" message
        clk.condUpdate clk.condTransition)
      clk.filter
  else if newphase = Completed then
    SetCondition status
      (NewStateCondition JobSucceed "Job completed" message clk.condUpdate clk.condTransition)
      clk.filter
  else if newphase = Failed ∨ newphase = Terminated ∨ newphase = Aborted then
    SetCondition status
      (NewStateCondition JobStopped "Job stopped" message clk.condUpdate clk.condTransition)
      clk.filter
  else if newphase = Restarting then
    SetCondition status
      (NewStateCondition JobRestarting "Job is restarting" message
        clk.condUpdate clk.condTransition)
      clk.filter
  else status

/-- Go `UpdateJobPhase`; the status is returned instead of updated in place. -/
def UpdateJobPhase (status : JobStatus) (newphase : JobPhase) (message : String)
    (clk : Clock) : JobStatus :=
  let status := phaseSwitch status newphase message clk
  let status := { status with Phase := newphase }
  let now := clk.now
  let status :=
    if !IsZero status.CompletionTime && HasCondition status JobRestarting then
      { status with CompletionTime := none }
    else status
  let status :=
    if IsZero status.StartTime && HasCondition status JobCreated then
      { status with StartTime := some now }
    else status
  if IsZero status.CompletionTime &&
      (HasCondition status JobSucceed || HasCondition status JobSucceed) then
    { status with CompletionTime := some now }
  else status

/-! ## Pod synthesis -/

/-- Go `fmt.Sprintf("%d", n)` of the standard library: the decimal digits of `n`, after a
minus sign when `n` is negative. -/
def formatInt : Int → String
  | Int.ofNat n => Nat.repr n
  | Int.negSucc n => "-" ++ Nat.repr (n + 1)

/-- Modelled from the spec: `fmt.Sprintf(vkjobhelpers.PodNameFmt, ...)` for the constant
`PodNameFmt`, which is declared in the helpers package (not part of the sources at
hand); the pod name format is "%s-%s-%d", job name, task name and index joined by "-". -/
def sprintfPodNameFmt (jobName taskName : String) (index : Int) : String :=
  jobName ++ "-" ++ taskName ++ "-" ++ formatInt index

/-- Go `MakePodName`. -/
def MakePodName (jobName : String) (taskName : String) (index : Int) : String :=
  sprintfPodNameFmt jobName taskName index

/-- Modelled from the spec: `vkjobhelpers.MakePodName` of the helpers package, which
`createJobPod` calls; the pod name is formatted from job name, task name and index with
the same fixed format as `MakePodName`. -/
def helpersMakePodName (jobName : String) (taskName : String) (index : Int) : String :=
  sprintfPodNameFmt jobName taskName index

/-- Modelled from the spec: the constant `vkv1.TaskSpecKey`, the task-spec annotation
key. -/
def TaskSpecKey : String := "volcano.sh/task-spec"

/-- Modelled from the spec: the constant `vkv1.DefaultTaskSpec`, the task-spec value of
an unnamed template. -/
def DefaultTaskSpec : String := "default"

/-- Modelled from the spec: the constant `kbapi.GroupNameAnnotationKey`, the annotation
key of the scheduling group. -/
def GroupNameAnnotationKey : String := "scheduling.k8s.io/group-name"

/-- Modelled from the spec: the constant `vkv1.JobNameKey`, the job-name key. -/
def JobNameKey : String := "volcano.sh/job-name"

/-- Modelled from the spec: the constant `vkv1.JobNamespaceKey`, the job-namespace key. -/
def JobNamespaceKey : String := "volcano.sh/job-namespace"

/-- Modelled from the spec: the constant `vkv1.JobVersion`, the job-version annotation
key. -/
def JobVersion : String := "volcano.sh/job-version"

/-- Modelled from the spec: `metav1.NewControllerRef(job, helpers.JobKind)`, an owner
reference to the job with controller set; `helpers.JobKind` is the group, version and
kind of the Job resource. -/
def NewControllerRef (job : Job) : OwnerReference :=
  { APIVersion := "batch.volcano.sh/v1alpha1"
    Kind := "Job"
    Name := job.Name
    UID := job.UID
    Controller := some true
    BlockOwnerDeletion := some true }

/-- The Go map assignment `m[key] = value` on an association list. -/
def mapSet {α : Type} : List (String × α) → String → α → List (String × α)
  | [], key, value => [(key, value)]
  | (k, v) :: rest, key, value =>
    if k = key then (key, value) :: rest else (k, v) :: mapSet rest key value

/-- The Go map read `value, ok := m[key]` on an association list. -/
def mapGet {α : Type} (m : List (String × α)) (key : String) : Option α :=
  m.lookup key

/-- The Go map test `_, ok := m[key]` on an association list. -/
def mapHas {α : Type} (m : List (String × α)) (key : String) : Bool :=
  (mapGet m key).isSome

/-- The loop `for i, c := range pod.Spec.Containers` of `createJobPod` (lines 85-91):
the mount is appended to the mounts of every container. -/
def mountLoop (vm : VolumeMount) : List Container → List Container
  | [] => []
  | c :: rest => { c with VolumeMounts := c.VolumeMounts ++ [vm] } :: mountLoop vm rest

/-- The loop `for _, volume := range job.Spec.Volumes` of `createJobPod` (lines 64-92);
`volumeMap` holds the keys of the Go map of the same name. -/
def volumeLoop (job : Job) : List VolumeSpec → List String → PodSpec → PodSpec
  | [], _, spec => spec
  | volume :: rest, volumeMap, spec =>
    let vcName := volume.VolumeClaimName
    let injected : List String × PodSpec :=
      if vcName ∉ volumeMap then
        if mapHas job.Status.ControlledResources ("volume-emptyDir-" ++ vcName) = true ∧
            volume.VolumeClaim = none then
          let volume : Volume := { Name := vcName, EmptyDir := some {} }
          (vcName :: volumeMap, { spec with Volumes := spec.Volumes ++ [volume] })
        else
          let volume : Volume :=
            { Name := vcName, PersistentVolumeClaim := some { ClaimName := vcName } }
          (vcName :: volumeMap, { spec with Volumes := spec.Volumes ++ [volume] })
      else (volumeMap, spec)
    let vm : VolumeMount := { MountPath := volume.MountPath, Name := vcName }
    volumeLoop job rest injected.1
      { injected.2 with Containers := mountLoop vm injected.2.Containers }

/-- The statements of Go `createJobPod` that follow the volume loop (lines 94-123):
annotations, labels and the scheduler name taken from the job. -/
def labelPod (job : Job) (templateCopy : PodTemplateSpec) (pod : Pod) : Pod :=
  let pod := if pod.Annotations.length = 0 then { pod with Annotations := [] } else pod
  let tsKey := if templateCopy.Name.length = 0 then DefaultTaskSpec else templateCopy.Name
  let pod := if pod.Annotations.length = 0 then { pod with Annotations := [] } else pod
  let pod := { pod with Annotations := mapSet pod.Annotations TaskSpecKey tsKey }
  let pod := { pod with Annotations := mapSet pod.Annotations GroupNameAnnotationKey job.Name }
  let pod := { pod with Annotations := mapSet pod.Annotations JobNameKey job.Name }
  let pod :=
    { pod with Annotations := mapSet pod.Annotations JobVersion (formatInt job.Status.Version) }
  let pod := if pod.Labels.length = 0 then { pod with Labels := [] } else pod
  let pod := { pod with Labels := mapSet pod.Labels JobNameKey job.Name }
  let pod := { pod with Labels := mapSet pod.Labels JobNamespaceKey job.Namespace }
  if job.Spec.SchedulerName ≠ "" ∧ pod.Spec.SchedulerName = "" then
    { pod with Spec := { pod.Spec with SchedulerName := job.Spec.SchedulerName } }
  else pod

/-- Go `createJobPod`; `template.DeepCopy()` is the template itself, values being
immutable. -/
def createJobPod (job : Job) (template : PodTemplateSpec) (ix : Int) : Pod :=
  let templateCopy := template
  let pod : Pod :=
    { Name := helpersMakePodName job.Name template.Name ix
      Namespace := job.Namespace
      OwnerReferences := [NewControllerRef job]
      Labels := templateCopy.Labels
      Annotations := templateCopy.Annotations
      Spec := templateCopy.Spec }
  let pod :=
    if pod.Spec.SchedulerName.length = 0 then
      { pod with Spec := { pod.Spec with SchedulerName := job.Spec.SchedulerName } }
    else pod
  let pod := { pod with Spec := volumeLoop job job.Spec.Volumes [] pod.Spec }
  labelPod job templateCopy pod

/-! ## Resource aggregation and task priorities -/

/-- Go `resource.Quantity` of the Kubernetes API machinery, an exact amount, as an
integer number of the smallest unit. -/
abbrev Quantity := Int

/-- Go `v1.ResourceList`, a `map[ResourceName]Quantity`, kept as an association list; the
entries of a Go map have pairwise distinct names. -/
abbrev ResourceList := List (String × Quantity)

/-- The loop `for name, quantity := range req` of Go `addResourceList` (lines 205-213);
the entries are visited in the order of the list. -/
def requestLoop : List (String × Quantity) → ResourceList → ResourceList
  | [], list => list
  | (name, quantity) :: rest, list =>
    match mapGet list name with
    | none => requestLoop rest (mapSet list name quantity)
    | some value => requestLoop rest (mapSet list name (value + quantity))

/-- The loop `for name, quantity := range limit` of Go `addResourceList` (lines
217-221). -/
def limitLoop : List (String × Quantity) → ResourceList → ResourceList
  | [], list => list
  | (name, quantity) :: rest, list =>
    if mapHas list name = false then limitLoop rest (mapSet list name quantity)
    else limitLoop rest list

/-- Go `addResourceList`; the accumulator is returned instead of updated in place. -/
def addResourceList (list req limit : ResourceList) : ResourceList :=
  limitLoop limit (requestLoop req list)

/-- Go `TaskPriority`: a priority and the embedded task. -/
structure TaskPriority where
  priority : Int := 0
  TaskSpec : Volcano.TaskSpec := {}
deriving DecidableEq

/-- Go `TasksPriority`, a slice of `TaskPriority`. -/
abbrev TasksPriority := List TaskPriority

/-- Go `TasksPriority.Len`. -/
def TasksPriority.Len (p : TasksPriority) : Nat := p.length

/-- Go `TasksPriority.Less`; an index out of range, on which Go panics, gives false. -/
def TasksPriority.Less (p : TasksPriority) (i j : Nat) : Bool :=
  match p[i]?, p[j]? with
  | some a, some b => decide (a.priority > b.priority)
  | _, _ => false

/-- Go `TasksPriority.Swap`; an index out of range, on which Go panics, changes
nothing. -/
def TasksPriority.Swap (p : TasksPriority) (i j : Nat) : TasksPriority :=
  match p[i]?, p[j]? with
  | some a, some b => (p.set i b).set j a
  | _, _ => p

/-- The inner loop of the insertion sort of Go's `sort` package,
`for j := i; j > 0 && data.Less(j, j-1); j-- { data.Swap(j, j-1) }`, started at `j`. -/
def sinkLoop : Nat → TasksPriority → TasksPriority
  | 0, p => p
  | j + 1, p =>
    if TasksPriority.Less p (j + 1) j = true then sinkLoop j (TasksPriority.Swap p (j + 1) j)
    else p

/-- The outer loop of that insertion sort, `for i := 1; i < n; i++`, with `remaining`
iterations left from index `i` on. -/
def insertionLoop : Nat → Nat → TasksPriority → TasksPriority
  | 0, _, p => p
  | remaining + 1, i, p => insertionLoop remaining (i + 1) (sinkLoop i p)

/-- A stable sort driven by `Len`, `Less` and `Swap`: the insertion sort
`insertionSort(data, 0, n)` of Go's `sort` package, which is the sort that `sort.Stable`
runs on a slice of up to 20 elements. -/
def stableSort (p : TasksPriority) : TasksPriority :=
  insertionLoop (TasksPriority.Len p - 1) 1 p

/-! ## Predicates used to state the properties -/

/-- Membership of `e` in the effective event set of a policy, the list that
`getEventlist` builds: the `Events` list and the singular `Event` when non-empty. -/
def inEventSet (policy : LifecyclePolicy) (e : Event) : Prop :=
  e ∈ policy.Events ∨ (policy.Event ≠ "" ∧ e = policy.Event)

instance (policy : LifecyclePolicy) (e : Event) : Decidable (inEventSet policy e) := by
  unfold inEventSet; infer_instance

/-- The policy matches the request by event set: the two tests of lines 151-152 and
171-172 of the source. -/
def matchesByEvent (req : Request) (policy : LifecyclePolicy) : Prop :=
  req.Event ≠ "" ∧ (inEventSet policy req.Event ∨ inEventSet policy AnyEvent)

instance (req : Request) (policy : LifecyclePolicy) : Decidable (matchesByEvent req policy) := by
  unfold matchesByEvent; infer_instance

/-- The policy matches the request by exit code: the test of lines 158 and 178 of the
source. -/
def matchesByExitCode (req : Request) (policy : LifecyclePolicy) : Prop :=
  policy.ExitCode = some req.ExitCode

instance (req : Request) (policy : LifecyclePolicy) :
    Decidable (matchesByExitCode req policy) := by
  unfold matchesByExitCode; infer_instance

/-- The policy matches the request, by event set or by exit code. -/
def matchesRequest (req : Request) (policy : LifecyclePolicy) : Prop :=
  matchesByEvent req policy ∨ matchesByExitCode req policy

instance (req : Request) (policy : LifecyclePolicy) : Decidable (matchesRequest req policy) := by
  unfold matchesRequest; infer_instance

/-- The condition history is keyed by Type: at most one entry per condition type. -/
def KeyedByType (status : JobStatus) : Prop :=
  (status.Conditions.map (fun c => c.Type_)).Nodup

instance (status : JobStatus) : Decidable (KeyedByType status) := by
  unfold KeyedByType; infer_instance

/-- The status holds an active (Status true) Restarting entry. -/
def ActiveRestarting (status : JobStatus) : Prop :=
  ∃ r ∈ status.Conditions, r.Type_ = JobRestarting ∧ r.Status = ConditionTrue

instance (status : JobStatus) : Decidable (ActiveRestarting status) := by
  unfold ActiveRestarting; infer_instance

/-- The status holds no entry of type Scheduled, Succeeded or Stopped. -/
def NoTerminalMarker (status : JobStatus) : Prop :=
  ∀ x ∈ status.Conditions,
    x.Type_ ≠ JobScheduled ∧ x.Type_ ≠ JobSucceed ∧ x.Type_ ≠ JobStopped

instance (status : JobStatus) : Decidable (NoTerminalMarker status) := by
  unfold NoTerminalMarker; infer_instance

/-- An active Restarting entry excludes entries of type Scheduled, Succeeded and
Stopped. -/
def RestartExcludes (status : JobStatus) : Prop :=
  ActiveRestarting status → NoTerminalMarker status

instance (status : JobStatus) : Decidable (RestartExcludes status) := by
  unfold RestartExcludes; infer_instance

/-- The call `SetCondition status condition` changes nothing: the first entry of the
condition's type has the same Status and Reason (the test of line 322 of the source). -/
def Unchanged (status : JobStatus) (condition : JobCondition) : Prop :=
  match GetCondition status condition.Type_ with
  | some cur => cur.Status = condition.Status ∧ cur.Reason = condition.Reason
  | none => False

instance (status : JobStatus) (condition : JobCondition) :
    Decidable (Unchanged status condition) := by
  unfold Unchanged
  cases GetCondition status condition.Type_ <;> infer_instance

/-- The statuses reached from the empty status by calls of `UpdateJobPhase`. -/
inductive PhaseReachable : JobStatus → Prop
  | empty : PhaseReachable {}
  | updateJobPhase (status : JobStatus) (newphase : JobPhase) (message : String) (clk : Clock) :
      PhaseReachable status → PhaseReachable (UpdateJobPhase status newphase message clk)

/-- The statuses reached from the empty status by calls of `SetCondition` and
`UpdateJobPhase`. -/
inductive Reachable : JobStatus → Prop
  | empty : Reachable {}
  | setCondition (status : JobStatus) (condition : JobCondition) (now : Nat → Time) :
      Reachable status → Reachable (SetCondition status condition now)
  | updateJobPhase (status : JobStatus) (newphase : JobPhase) (message : String) (clk : Clock) :
      Reachable status → Reachable (UpdateJobPhase status newphase message clk)

/-- The claim names that the job declares, in declaration order. -/
def claimNames (job : Job) : List String :=
  job.Spec.Volumes.map (fun v => v.VolumeClaimName)

/-- The volumes of the built pod that follow the template's own volumes. -/
def injectedVolumes (job : Job) (template : PodTemplateSpec) (ix : Int) : List Volume :=
  (createJobPod job template ix).Spec.Volumes.drop template.Spec.Volumes.length

/-- The job's status marks the claim name as empty-dir-backed: the key
"volume-emptyDir-" followed by the name is present in `ControlledResources`. -/
def markedEmptyDir (job : Job) (name : String) : Prop :=
  mapHas job.Status.ControlledResources ("volume-emptyDir-" ++ name) = true

instance (job : Job) (name : String) : Decidable (markedEmptyDir job name) := by
  unfold markedEmptyDir; infer_instance

/-- The first declaration of the claim name among the job's volumes. -/
def firstDeclaration (job : Job) (name : String) : Option VolumeSpec :=
  job.Spec.Volumes.find? (fun d => d.VolumeClaimName == name)

/-- The number of volumes of the given name. -/
def volumeCount (name : String) (volumes : List Volume) : Nat :=
  (volumes.filter (fun v => v.Name == name)).length

/-- The resource names of a list, in order. -/
def resourceNames (l : ResourceList) : List String := l.map (fun e => e.1)

/-- The quantity that the claim on `addResourceList` gives for one resource name, from
the old accumulator entry, the request entry and the limit entry. -/
def mergedQuantity : Option Quantity → Option Quantity → Option Quantity → Option Quantity
  | some a, some r, _ => some (a + r)
  | none, some r, _ => some r
  | some a, none, _ => some a
  | none, none, some l => some l
  | none, none, none => none

/-- The number that a list of decimal digit characters denotes, most significant digit
first. -/
def decimalValue (digits : List Char) : Nat :=
  digits.foldl (fun acc c => acc * 10 + (c.toNat - 48)) 0

/-- The priority of the first task is at most the priority of the second. -/
def priorityLE (a b : TaskPriority) : Prop := a.priority ≤ b.priority

instance : DecidableRel priorityLE := fun a b => by
  unfold priorityLE; infer_instance

instance : IsTotal TaskPriority priorityLE := ⟨fun a b => Int.le_total a.priority b.priority⟩

instance : IsTrans TaskPriority priorityLE := ⟨fun _ _ _ h1 h2 => Int.le_trans h1 h2⟩

/-- The tasks of a given priority, in order. -/
def withPriority (v : Int) (p : TasksPriority) : TasksPriority :=
  p.filter (fun t => t.priority == v)

/-- Merging the containers of a list into an accumulator, first to last: one call of
`addResourceList` per container, a container being its (requests, limits). -/
def mergeAll (acc : ResourceList) (containers : List (ResourceList × ResourceList)) :
    ResourceList :=
  containers.foldl (fun list c => addResourceList list c.1 c.2) acc

/-! ## Sample inputs -/

/-- A task-level policy: event "Failed" restarts the job. -/
def restartOnFailed : LifecyclePolicy := { Event := "Failed", Action := RestartJobAction }

/-- A job-level policy: event "Failed" aborts the job. -/
def abortOnFailed : LifecyclePolicy := { Event := "Failed", Action := AbortJobAction }

/-- A policy with neither events nor an exit code. -/
def emptyPolicy : LifecyclePolicy := { Action := RestartJobAction }

/-- A policy on exit code 3. -/
def abortOnExit3 : LifecyclePolicy := { ExitCode := some 3, Action := AbortJobAction }

/-- A job whose task "worker" restarts on "Failed" while the job aborts on "Failed". -/
def workerJob : Job :=
  { Name := "job"
    Spec := { Tasks := [{ Name := "master" }, { Name := "worker", Policies := [restartOnFailed] }]
              Policies := [abortOnFailed] } }

/-- A request for task "worker" of `workerJob`. -/
def workerFailed : Request := { TaskName := "worker", Event := "Failed" }

/-- The job `workerJob` with its second task left unnamed. -/
def unnamedTaskJob : Job :=
  { Name := "job"
    Spec := { Tasks := [{ Name := "master" }, { Name := "", Policies := [restartOnFailed] }]
              Policies := [abortOnFailed] } }

/-- A request that names no task. -/
def untargetedFailed : Request := { TaskName := "", Event := "Failed" }

/-- A job at version 1. -/
def versionOneJob : Job :=
  { Name := "job", Spec := { Policies := [abortOnFailed] }, Status := { Version := 1 } }

/-- A request issued against version 0 that carries an explicit action. -/
def staleRestart : Request := { Action := RestartJobAction, JobVersion := 0 }

/-- A request issued against version 0 that carries only an event. -/
def staleFailed : Request := { Event := "Failed", JobVersion := 0 }

/-- A request with every field set: explicit action, reserved event, exit code, task
name and a version older than any job version. -/
def explicitAbort : Request :=
  { Action := AbortJobAction, Event := OutOfSyncEvent, ExitCode := 3, TaskName := "worker",
    JobVersion := -1 }

/-- A job with three job-level policies, the first of them empty. -/
def threePolicyJob : Job :=
  { Name := "job", Spec := { Policies := [emptyPolicy, abortOnExit3, restartOnFailed] } }

/-- A request with event "Failed" and exit code 3. -/
def failedExit3 : Request := { Event := "Failed", ExitCode := 3 }

/-- An active Restarting condition, as `UpdateJobPhase` builds it at time 7. -/
def restartCondition : JobCondition :=
  NewStateCondition JobRestarting "Job is restarting" "first" 7 7

/-- The same condition built at time 9 with another message. -/
def restartConditionLater : JobCondition :=
  NewStateCondition JobRestarting "Job is restarting" "second" 9 9

/-- A Created condition, as `UpdateJobPhase` builds it at time 9. -/
def createdCondition : JobCondition := NewStateCondition JobCreated "Job created" "" 9 9

/-- A Scheduled condition, as `UpdateJobPhase` builds it at time 9. -/
def scheduledCondition : JobCondition :=
  NewStateCondition JobScheduled "Job successfully scheduled" "" 9 9

/-- The status after the phases Pending (at time 3) and Completed (at time 5). -/
def completedStatus : JobStatus :=
  UpdateJobPhase (UpdateJobPhase {} Pending "" { now := 3 }) Completed "" { now := 5 }

/-- The status after the phases Pending (at time 3) and Restarting (at time 5). -/
def restartedStatus : JobStatus :=
  UpdateJobPhase (UpdateJobPhase {} Pending "" { now := 3 }) Restarting "" { now := 5 }

/-- A status that holds an active Restarting entry next to a Succeeded entry. -/
def restartingAndSucceeded : JobStatus :=
  { Conditions :=
      [{ Type_ := JobRestarting, Status := ConditionTrue, Reason := "Job is restarting" },
       { Type_ := JobSucceed, Status := ConditionTrue, Reason := "Job completed" }] }

/-- A request for an unknown task "ghost" with the event "Failed". -/
def ghostFailed : Request := { TaskName := "ghost", Event := "Failed" }

/-- A job with two tasks named "worker": the first has a policy on exit code 3, the
second restarts on "Failed"; the job aborts on "Failed". -/
def twoWorkersJob : Job :=
  { Name := "job"
    Spec := { Tasks := [{ Name := "worker", Policies := [abortOnExit3] },
                        { Name := "worker", Policies := [restartOnFailed] }]
              Policies := [abortOnFailed] } }

/-- A pod template with one container and one volume named "data" of its own. -/
def dataTemplate : PodTemplateSpec :=
  { Name := "worker"
    Spec := { Volumes := [{ Name := "data" }], Containers := [{ Name := "main" }] } }

/-- A pod template with one container and no volume. -/
def plainTemplate : PodTemplateSpec :=
  { Name := "worker", Spec := { Containers := [{ Name := "main" }] } }

/-- A declaration of the claim "data" mounted at "/data". -/
def dataVolume : VolumeSpec := { VolumeClaimName := "data", MountPath := "/data" }

/-- A declaration of the claim "data" that carries a claim specification. -/
def dataVolumeWithClaim : VolumeSpec :=
  { VolumeClaimName := "data", MountPath := "/data", VolumeClaim := some {} }

/-- A declaration of the claim "scratch" mounted at "/scratch". -/
def scratchVolume : VolumeSpec := { VolumeClaimName := "scratch", MountPath := "/scratch" }

/-- A job that declares "data", "scratch" and "data" again; "scratch" is marked as
empty-dir-backed. -/
def volumesJob : Job :=
  { Name := "job"
    Spec := { Volumes := [dataVolume, scratchVolume, dataVolume] }
    Status := { ControlledResources := [("volume-emptyDir-scratch", "scratch")] } }

/-- A job that declares "data" once. -/
def oneVolumeJob : Job := { Name := "job", Spec := { Volumes := [dataVolume] } }

/-- A job that declares "data" twice, with the same mount path. -/
def twiceVolumeJob : Job := { Name := "job", Spec := { Volumes := [dataVolume, dataVolume] } }

/-- A job whose claim "data" is marked as empty-dir-backed while its declaration carries
a claim specification. -/
def markedWithClaimJob : Job :=
  { Name := "job"
    Spec := { Volumes := [dataVolumeWithClaim] }
    Status := { ControlledResources := [("volume-emptyDir-data", "data")] } }

/-- Four tasks "a", "b", "c", "d" with the priorities 1, 5, 5, 2. -/
def fourTasks : TasksPriority :=
  [{ priority := 1, TaskSpec := { Name := "a" } }, { priority := 5, TaskSpec := { Name := "b" } },
   { priority := 5, TaskSpec := { Name := "c" } }, { priority := 2, TaskSpec := { Name := "d" } }]

/-- A container that requests cpu 1 and sets no limit. -/
def requestsCpu1 : ResourceList × ResourceList := ([("cpu", 1)], [])

/-- A container that requests nothing and limits cpu to 2. -/
def limitsCpu2 : ResourceList × ResourceList := ([], [("cpu", 2)])

/-- A container that requests cpu 2 and mem 4 and sets no limit. -/
def requestsCpu2Mem4 : ResourceList × ResourceList := ([("cpu", 2), ("mem", 4)], [])

theorem length_eq_zero_iff (s : String) : s.length = 0 ↔ s = "" := by
  constructor
  · intro h
    cases s with
    | mk data =>
      have : data = [] := List.length_eq_zero.mp h
      subst this
      rfl
  · intro h
    subst h
    rfl

theorem length_pos_iff (s : String) : s.length > 0 ↔ s ≠ "" := by
  rw [gt_iff_lt, Nat.pos_iff_ne_zero, Ne, length_eq_zero_iff]

theorem checkEventExist_iff (l : List Event) (e : Event) :
    checkEventExist l e = true ↔ e ∈ l := by
  induction l with
  | nil => simp [checkEventExist]
  | cons x xs ih =>
    by_cases h : x = e
    · simp [checkEventExist, h]
    · have h2 : ¬ e = x := fun h3 => h h3.symm
      simp [checkEventExist, h, h2, ih]

theorem mem_getEventlist (policy : LifecyclePolicy) (e : Event) :
    e ∈ getEventlist policy ↔ inEventSet policy e := by
  unfold getEventlist inEventSet
  by_cases h : policy.Event = ""
  · have h0 : ¬ policy.Event.length > 0 := by rw [length_pos_iff]; exact fun h2 => h2 h
    simp [h0, h]
  · have h0 : policy.Event.length > 0 := by rw [length_pos_iff]; exact h
    simp [h0, h]

theorem policyLoop_cons (req : Request) (policy : LifecyclePolicy)
    (rest : List LifecyclePolicy) :
    policyLoop req (policy :: rest) =
      if matchesRequest req policy then some policy.Action else policyLoop req rest := by
  have hev : ((getEventlist policy).length > 0 ∧ req.Event.length > 0 ∧
      (checkEventExist (getEventlist policy) req.Event ||
        checkEventExist (getEventlist policy) AnyEvent) = true) ↔ matchesByEvent req policy := by
    unfold matchesByEvent
    rw [length_pos_iff, Bool.or_eq_true, checkEventExist_iff, checkEventExist_iff,
      mem_getEventlist, mem_getEventlist, ← mem_getEventlist, ← mem_getEventlist]
    constructor
    · rintro ⟨_, h2, h3⟩
      exact ⟨h2, h3⟩
    · rintro ⟨h2, h3⟩
      refine ⟨?_, h2, h3⟩
      rcases h3 with h3 | h3
      · exact List.length_pos_of_mem h3
      · exact List.length_pos_of_mem h3
  have hex : (policy.ExitCode ≠ none ∧ policy.ExitCode = some req.ExitCode) ↔
      matchesByExitCode req policy := by
    unfold matchesByExitCode
    constructor
    · exact fun h => h.2
    · intro h
      exact ⟨by rw [h]; simp, h⟩
  simp only [policyLoop]
  rw [if_congr hev rfl (if_congr hex rfl rfl)]
  unfold matchesRequest
  by_cases h1 : matchesByEvent req policy
  · simp [h1]
  · by_cases h2 : matchesByExitCode req policy
    · simp [h1, h2]
    · simp [h1, h2]

theorem policyLoop_first (req : Request) :
    ∀ (ps : List LifecyclePolicy) (i : Nat) (p : LifecyclePolicy), ps[i]? = some p →
      matchesRequest req p →
      (∀ j q, j < i → ps[j]? = some q → ¬ matchesRequest req q) →
      policyLoop req ps = some p.Action := by
  intro ps
  induction ps with
  | nil => intro i p h; simp at h
  | cons x xs ih =>
    intro i p h hm hfirst
    rw [policyLoop_cons]
    cases i with
    | zero =>
      simp at h
      subst h
      simp [hm]
    | succ n =>
      have hx : ¬ matchesRequest req x := hfirst 0 x (Nat.succ_pos n) (by simp)
      simp only [hx, if_false]
      apply ih n p
      · simpa using h
      · exact hm
      · intro j q hj hq
        exact hfirst (j + 1) q (Nat.succ_lt_succ hj) (by simpa using hq)

theorem policyLoop_none (req : Request) :
    ∀ (ps : List LifecyclePolicy), (∀ p ∈ ps, ¬ matchesRequest req p) →
      policyLoop req ps = none := by
  intro ps
  induction ps with
  | nil => intro _; rfl
  | cons x xs ih =>
    intro h
    rw [policyLoop_cons]
    have hx : ¬ matchesRequest req x := h x (List.mem_cons_self x xs)
    simp only [hx, if_false]
    exact ih (fun p hp => h p (List.mem_cons_of_mem x hp))

theorem policyLoop_skip (req : Request) (p : LifecyclePolicy) (hp : ¬ matchesRequest req p) :
    ∀ (l1 l2 : List LifecyclePolicy),
      policyLoop req (l1 ++ p :: l2) = policyLoop req (l1 ++ l2) := by
  intro l1
  induction l1 with
  | nil =>
    intro l2
    rw [List.nil_append, List.nil_append, policyLoop_cons]
    simp only [hp, if_false]
  | cons x xs ih =>
    intro l2
    rw [List.cons_append, List.cons_append, policyLoop_cons, policyLoop_cons, ih l2]

theorem taskLoop_first (req : Request) :
    ∀ (ts : List TaskSpec) (k : Nat) (t : TaskSpec), ts[k]? = some t →
      t.Name = req.TaskName →
      (∀ j u, j < k → ts[j]? = some u → u.Name ≠ req.TaskName) →
      taskLoop req ts = policyLoop req t.Policies := by
  intro ts
  induction ts with
  | nil => intro k t h; simp at h
  | cons x xs ih =>
    intro k t h hn hfirst
    cases k with
    | zero =>
      simp at h
      subst h
      simp [taskLoop, hn]
    | succ n =>
      have hx : x.Name ≠ req.TaskName := hfirst 0 x (Nat.succ_pos n) (by simp)
      simp only [taskLoop, hx, if_false]
      apply ih n t
      · simpa using h
      · exact hn
      · intro j u hj hu
        exact hfirst (j + 1) u (Nat.succ_lt_succ hj) (by simpa using hu)

theorem emptyPolicy_no_match (req : Request) (p : LifecyclePolicy) (h1 : p.Events = [])
    (h2 : p.Event = "") (h3 : p.ExitCode = none) : ¬ matchesRequest req p := by
  unfold matchesRequest matchesByEvent matchesByExitCode inEventSet
  rw [h1, h2, h3]
  simp

theorem applyPolicies_job_level (job : Job) (req : Request) (hA : req.Action = "")
    (hE : req.Event ≠ OutOfSyncEvent) (hV : job.Status.Version ≤ req.JobVersion)
    (hT : req.TaskName = "") :
    applyPolicies job req = (policyLoop req job.Spec.Policies).getD SyncJobAction := by
  have hA0 : ¬ req.Action.length ≠ 0 := by rw [Ne, length_eq_zero_iff]; exact fun h => h hA
  have hT0 : ¬ req.TaskName.length ≠ 0 := by rw [Ne, length_eq_zero_iff]; exact fun h => h hT
  have hV0 : ¬ req.JobVersion < job.Status.Version := not_lt.mpr hV
  unfold applyPolicies
  simp only [hA0, hE, hV0, hT0, if_false]
  cases policyLoop req job.Spec.Policies <;> rfl

/-! ## Conditions and phases: lemmas -/

theorem condition_constants_distinct :
    JobRestarting ≠ JobScheduled ∧ JobRestarting ≠ JobSucceed ∧ JobRestarting ≠ JobStopped ∧
      ConditionFalse ≠ ConditionTrue := by decide

theorem getConditionLoop_some (t : JobConditionType) :
    ∀ (l : List JobCondition) (c : JobCondition), getConditionLoop t l = some c →
      c ∈ l ∧ c.Type_ = t := by
  intro l
  induction l with
  | nil => intro c h; simp [getConditionLoop] at h
  | cons x xs ih =>
    intro c h
    by_cases hx : x.Type_ = t
    · simp only [getConditionLoop, hx, if_true] at h
      have hc : x = c := Option.some.inj h
      subst hc
      exact ⟨List.mem_cons_self _ _, hx⟩
    · simp only [getConditionLoop, hx, if_false] at h
      exact ⟨List.mem_cons_of_mem _ (ih c h).1, (ih c h).2⟩

theorem getConditionLoop_append (t : JobConditionType) (c : JobCondition) (hc : c.Type_ = t) :
    ∀ (l : List JobCondition), (∀ x ∈ l, x.Type_ ≠ t) →
      getConditionLoop t (l ++ [c]) = some c := by
  intro l
  induction l with
  | nil => intro _; simp [getConditionLoop, hc]
  | cons x xs ih =>
    intro h
    have hx : x.Type_ ≠ t := h x (List.mem_cons_self _ _)
    simp only [List.cons_append, getConditionLoop, hx, if_false]
    exact ih (fun y hy => h y (List.mem_cons_of_mem _ hy))

theorem hasConditionLoop_iff (t : JobConditionType) :
    ∀ (l : List JobCondition),
      hasConditionLoop t l = true ↔ ∃ x ∈ l, x.Type_ = t ∧ x.Status = ConditionTrue := by
  intro l
  induction l with
  | nil => simp [hasConditionLoop]
  | cons x xs ih =>
    by_cases hx : x.Type_ = t ∧ x.Status = ConditionTrue
    · simp only [hasConditionLoop, hx, and_self, if_true, true_iff]
      exact ⟨x, List.mem_cons_self _ _, hx⟩
    · simp only [hasConditionLoop, hx, if_false, ih]
      constructor
      · rintro ⟨y, hy, hy2⟩
        exact ⟨y, List.mem_cons_of_mem _ hy, hy2⟩
      · rintro ⟨y, hy, hy2⟩
        rcases List.mem_cons.mp hy with h | h
        · subst h
          exact absurd hy2 hx
        · exact ⟨y, h, hy2⟩

theorem filterLoop_cons (cur : JobCondition) (now : Nat → Time) (c : JobCondition)
    (rest : List JobCondition) :
    filterLoop cur now (c :: rest) =
      if c.Type_ = cur.Type_ then filterLoop cur (fun k => now (k + 1)) rest
      else if (cur.Type_ = JobRestarting ∧ cur.Status = ConditionTrue) ∧
          (c.Type_ = JobScheduled ∨ c.Type_ = JobSucceed ∨ c.Type_ = JobStopped) then
        filterLoop cur (fun k => now (k + 1)) rest
      else if c.Type_ = JobRestarting ∧ c.Status = ConditionTrue ∧ cur.Type_ ≠ c.Type_ then
        { c with
          Status := ConditionFalse
          LastUpdateTime := now 0
          Message := ""
          Reason := "Job finished restarting." } :: filterLoop cur (fun k => now (k + 1)) rest
      else c :: filterLoop cur (fun k => now (k + 1)) rest := by
  rfl

theorem filterLoop_type_ne (cur : JobCondition) :
    ∀ (l : List JobCondition) (now : Nat → Time) (x : JobCondition),
      x ∈ filterLoop cur now l → x.Type_ ≠ cur.Type_ := by
  intro l
  induction l with
  | nil => intro now x hx; simp [filterLoop] at hx
  | cons c rest ih =>
    intro now x hx
    rw [filterLoop_cons] at hx
    split_ifs at hx with h1 h2 h3
    · exact ih _ x hx
    · exact ih _ x hx
    · rcases List.mem_cons.mp hx with h | h
      · subst h
        exact h1
      · exact ih _ x h
    · rcases List.mem_cons.mp hx with h | h
      · subst h
        exact h1
      · exact ih _ x h

theorem filterLoop_types_sublist (cur : JobCondition) :
    ∀ (l : List JobCondition) (now : Nat → Time),
      List.Sublist ((filterLoop cur now l).map (fun c => c.Type_))
        (l.map (fun c => c.Type_)) := by
  intro l
  induction l with
  | nil => intro now; simp [filterLoop]
  | cons c rest ih =>
    intro now
    rw [filterLoop_cons]
    split_ifs with h1 h2 h3
    · exact List.Sublist.cons _ (ih _)
    · exact List.Sublist.cons _ (ih _)
    · exact List.Sublist.cons₂ _ (ih _)
    · exact List.Sublist.cons₂ _ (ih _)

theorem filterLoop_restart_drops (cur : JobCondition) (hT : cur.Type_ = JobRestarting)
    (hS : cur.Status = ConditionTrue) :
    ∀ (l : List JobCondition) (now : Nat → Time) (x : JobCondition),
      x ∈ filterLoop cur now l →
      x.Type_ ≠ JobScheduled ∧ x.Type_ ≠ JobSucceed ∧ x.Type_ ≠ JobStopped := by
  intro l
  induction l with
  | nil => intro now x hx; simp [filterLoop] at hx
  | cons c rest ih =>
    intro now x hx
    rw [filterLoop_cons] at hx
    have key : ¬ ((cur.Type_ = JobRestarting ∧ cur.Status = ConditionTrue) ∧
        (c.Type_ = JobScheduled ∨ c.Type_ = JobSucceed ∨ c.Type_ = JobStopped)) →
        c.Type_ ≠ JobScheduled ∧ c.Type_ ≠ JobSucceed ∧ c.Type_ ≠ JobStopped := by
      intro h
      refine ⟨fun h4 => h ⟨⟨hT, hS⟩, Or.inl h4⟩, fun h4 => h ⟨⟨hT, hS⟩, Or.inr (Or.inl h4)⟩,
        fun h4 => h ⟨⟨hT, hS⟩, Or.inr (Or.inr h4)⟩⟩
    split_ifs at hx with h1 h2 h3
    · exact ih _ x hx
    · exact ih _ x hx
    · rcases List.mem_cons.mp hx with h | h
      · subst h
        exact key h2
      · exact ih _ x h
    · rcases List.mem_cons.mp hx with h | h
      · subst h
        exact key h2
      · exact ih _ x h

theorem filterLoop_no_active_restart (cur : JobCondition) (hT : cur.Type_ ≠ JobRestarting) :
    ∀ (l : List JobCondition) (now : Nat → Time) (x : JobCondition),
      x ∈ filterLoop cur now l → x.Type_ = JobRestarting → x.Status ≠ ConditionTrue := by
  intro l
  induction l with
  | nil => intro now x hx; simp [filterLoop] at hx
  | cons c rest ih =>
    intro now x hx
    rw [filterLoop_cons] at hx
    split_ifs at hx with h1 h2 h3
    · exact ih _ x hx
    · exact ih _ x hx
    · rcases List.mem_cons.mp hx with h | h
      · subst h
        intro _
        exact condition_constants_distinct.2.2.2
      · exact ih _ x h
    · rcases List.mem_cons.mp hx with h | h
      · subst h
        intro h4 h5
        exact h3 ⟨h4, h5, fun h6 => hT (h6.trans h4)⟩
      · exact ih _ x h

theorem filterLoop_flips (cur : JobCondition) (hT : cur.Type_ ≠ JobRestarting)
    (r : JobCondition) (hrT : r.Type_ = JobRestarting) (hrS : r.Status = ConditionTrue) :
    ∀ (l : List JobCondition) (now : Nat → Time), r ∈ l →
      ∃ r2 ∈ filterLoop cur now l, r2.Type_ = JobRestarting ∧ r2.Status = ConditionFalse ∧
        r2.Reason = "Job finished restarting." ∧ r2.Message = "" ∧
        r2.LastTransitionTime = r.LastTransitionTime := by
  intro l
  induction l with
  | nil => intro now hr; simp at hr
  | cons c rest ih =>
    intro now hr
    rw [filterLoop_cons]
    have lift : (∃ r2 ∈ filterLoop cur (fun k => now (k + 1)) rest,
        r2.Type_ = JobRestarting ∧ r2.Status = ConditionFalse ∧
        r2.Reason = "Job finished restarting." ∧ r2.Message = "" ∧
        r2.LastTransitionTime = r.LastTransitionTime) →
        ∀ (y : JobCondition), ∃ r2 ∈ y :: filterLoop cur (fun k => now (k + 1)) rest,
        r2.Type_ = JobRestarting ∧ r2.Status = ConditionFalse ∧
        r2.Reason = "Job finished restarting." ∧ r2.Message = "" ∧
        r2.LastTransitionTime = r.LastTransitionTime := by
      rintro ⟨r2, h, h2⟩ y
      exact ⟨r2, List.mem_cons_of_mem _ h, h2⟩
    rcases List.mem_cons.mp hr with h | h
    · subst h
      have h1 : ¬ r.Type_ = cur.Type_ := fun h4 => hT (h4.symm.trans hrT)
      have h2 : ¬ ((cur.Type_ = JobRestarting ∧ cur.Status = ConditionTrue) ∧
          (r.Type_ = JobScheduled ∨ r.Type_ = JobSucceed ∨ r.Type_ = JobStopped)) :=
        fun h4 => hT h4.1.1
      have h3 : r.Type_ = JobRestarting ∧ r.Status = ConditionTrue ∧ cur.Type_ ≠ r.Type_ :=
        ⟨hrT, hrS, fun h4 => h1 h4.symm⟩
      rw [if_neg h1, if_neg h2, if_pos h3]
      exact ⟨_, List.mem_cons_self _ _, hrT, rfl, rfl, rfl, rfl⟩
    · split_ifs with h1 h2 h3
      · exact ih _ h
      · exact ih _ h
      · exact lift (ih _ h) _
      · exact lift (ih _ h) _

theorem unchanged_iff (s : JobStatus) (c : JobCondition) :
    Unchanged s c ↔ ∃ cur, GetCondition s c.Type_ = some cur ∧ cur.Status = c.Status ∧
      cur.Reason = c.Reason := by
  unfold Unchanged
  cases GetCondition s c.Type_ with
  | none => simp
  | some cur => simp

theorem SetCondition_unchanged (s : JobStatus) (c : JobCondition) (now : Nat → Time)
    (h : Unchanged s c) : SetCondition s c now = s := by
  obtain ⟨cur, h1, h2, h3⟩ := (unchanged_iff s c).mp h
  unfold SetCondition
  rw [h1]
  simp only [h2, h3, and_self, if_true]

theorem SetCondition_rebuilt (s : JobStatus) (c : JobCondition) (now : Nat → Time)
    (h : ¬ Unchanged s c) :
    ∃ c2 : JobCondition, c2.Type_ = c.Type_ ∧ c2.Status = c.Status ∧ c2.Reason = c.Reason ∧
      c2.Message = c.Message ∧
      SetCondition s c now = { s with Conditions := filterLoop c2 now s.Conditions ++ [c2] } := by
  unfold SetCondition
  cases hg : GetCondition s c.Type_ with
  | none => exact ⟨c, rfl, rfl, rfl, rfl, rfl⟩
  | some cur =>
    have hne : ¬ (cur.Status = c.Status ∧ cur.Reason = c.Reason) :=
      fun h2 => h ((unchanged_iff s c).mpr ⟨cur, hg, h2.1, h2.2⟩)
    simp only [hne, if_false]
    by_cases hs : cur.Status = c.Status
    · simp only [hs, if_true]
      exact ⟨{ c with LastTransitionTime := cur.LastTransitionTime }, rfl, rfl, rfl, rfl, rfl⟩
    · simp only [hs, if_false]
      exact ⟨c, rfl, rfl, rfl, rfl, rfl⟩

theorem SetCondition_hasCondition (s : JobStatus) (c : JobCondition) (now : Nat → Time)
    (hS : c.Status = ConditionTrue) : HasCondition (SetCondition s c now) c.Type_ = true := by
  unfold HasCondition
  rw [hasConditionLoop_iff]
  by_cases h : Unchanged s c
  · rw [SetCondition_unchanged s c now h]
    obtain ⟨cur, h1, h2, _⟩ := (unchanged_iff s c).mp h
    have hm := getConditionLoop_some c.Type_ s.Conditions cur h1
    exact ⟨cur, hm.1, hm.2, h2.trans hS⟩
  · obtain ⟨c2, h1, h2, _, _, h5⟩ := SetCondition_rebuilt s c now h
    rw [h5]
    exact ⟨c2, List.mem_append_right _ (List.mem_singleton_self c2), h1, h2.trans hS⟩

theorem SetCondition_keyed (s : JobStatus) (c : JobCondition) (now : Nat → Time)
    (hk : KeyedByType s) : KeyedByType (SetCondition s c now) := by
  by_cases h : Unchanged s c
  · rw [SetCondition_unchanged s c now h]
    exact hk
  · obtain ⟨c2, h1, _, _, _, h5⟩ := SetCondition_rebuilt s c now h
    rw [h5]
    unfold KeyedByType at hk ⊢
    simp only [List.map_append, List.map_cons, List.map_nil]
    rw [List.nodup_append]
    refine ⟨hk.sublist (filterLoop_types_sublist c2 s.Conditions now), List.nodup_singleton _, ?_⟩
    intro t ht ht2
    rw [List.mem_singleton] at ht2
    obtain ⟨x, hx, hx2⟩ := List.mem_map.mp ht
    exact filterLoop_type_ne c2 s.Conditions now x hx (hx2.trans ht2)

theorem SetCondition_restartExcludes (s : JobStatus) (c : JobCondition) (now : Nat → Time)
    (hr : RestartExcludes s) : RestartExcludes (SetCondition s c now) := by
  by_cases h : Unchanged s c
  · rw [SetCondition_unchanged s c now h]
    exact hr
  · obtain ⟨c2, h1, h2, _, _, h5⟩ := SetCondition_rebuilt s c now h
    rw [h5]
    rintro ⟨r, hrm, hrT, hrS⟩ x hx
    have hrm2 : r ∈ filterLoop c2 now s.Conditions ++ [c2] := hrm
    have hx2 : x ∈ filterLoop c2 now s.Conditions ++ [c2] := hx
    by_cases hT : c2.Type_ = JobRestarting
    · have hS : c2.Status = ConditionTrue := by
        rcases List.mem_append.mp hrm2 with h6 | h6
        · exact absurd (hrT.trans hT.symm) (filterLoop_type_ne c2 s.Conditions now r h6)
        · rw [List.mem_singleton] at h6
          rw [← h6]
          exact hrS
      rcases List.mem_append.mp hx2 with h6 | h6
      · exact filterLoop_restart_drops c2 hT hS s.Conditions now x h6
      · rw [List.mem_singleton] at h6
        rw [h6, hT]
        exact ⟨condition_constants_distinct.1, condition_constants_distinct.2.1,
          condition_constants_distinct.2.2.1⟩
    · rcases List.mem_append.mp hrm2 with h6 | h6
      · exact absurd hrS (filterLoop_no_active_restart c2 hT s.Conditions now r h6 hrT)
      · rw [List.mem_singleton] at h6
        rw [h6] at hrT
        exact absurd hrT hT

theorem SetCondition_times (s : JobStatus) (c : JobCondition) (now : Nat → Time) :
    (SetCondition s c now).CompletionTime = s.CompletionTime ∧
      (SetCondition s c now).StartTime = s.StartTime := by
  by_cases h : Unchanged s c
  · rw [SetCondition_unchanged s c now h]
    exact ⟨rfl, rfl⟩
  · obtain ⟨c2, _, _, _, _, h5⟩ := SetCondition_rebuilt s c now h
    rw [h5]
    exact ⟨rfl, rfl⟩

theorem phaseSwitch_cases (s : JobStatus) (p : JobPhase) (m : String) (clk : Clock) :
    phaseSwitch s p m clk = s ∨ ∃ c, phaseSwitch s p m clk = SetCondition s c clk.filter := by
  unfold phaseSwitch
  split_ifs
  · exact Or.inr ⟨_, rfl⟩
  · exact Or.inr ⟨_, rfl⟩
  · exact Or.inr ⟨_, rfl⟩
  · exact Or.inr ⟨_, rfl⟩
  · exact Or.inr ⟨_, rfl⟩
  · exact Or.inl rfl

theorem phaseSwitch_completionTime (s : JobStatus) (p : JobPhase) (m : String) (clk : Clock) :
    (phaseSwitch s p m clk).CompletionTime = s.CompletionTime := by
  rcases phaseSwitch_cases s p m clk with h | ⟨c, h⟩
  · rw [h]
  · rw [h]
    exact (SetCondition_times s c clk.filter).1

theorem UpdateJobPhase_phase (s : JobStatus) (p : JobPhase) (m : String) (clk : Clock) :
    (UpdateJobPhase s p m clk).Phase = p := by
  unfold UpdateJobPhase
  generalize phaseSwitch s p m clk = s1
  simp only []
  split_ifs <;> rfl

theorem UpdateJobPhase_conditions (s : JobStatus) (p : JobPhase) (m : String) (clk : Clock) :
    (UpdateJobPhase s p m clk).Conditions = (phaseSwitch s p m clk).Conditions := by
  unfold UpdateJobPhase
  generalize phaseSwitch s p m clk = s1
  simp only []
  split_ifs <;> rfl

theorem UpdateJobPhase_conditions_cases (s : JobStatus) (p : JobPhase) (m : String)
    (clk : Clock) :
    (UpdateJobPhase s p m clk).Conditions = s.Conditions ∨
      ∃ c, (UpdateJobPhase s p m clk).Conditions = (SetCondition s c clk.filter).Conditions := by
  rw [UpdateJobPhase_conditions]
  rcases phaseSwitch_cases s p m clk with h | ⟨c, h⟩
  · exact Or.inl (by rw [h])
  · exact Or.inr ⟨c, by rw [h]⟩

theorem UpdateJobPhase_keyed (s : JobStatus) (p : JobPhase) (m : String) (clk : Clock)
    (hk : KeyedByType s) : KeyedByType (UpdateJobPhase s p m clk) := by
  rcases UpdateJobPhase_conditions_cases s p m clk with h | ⟨c, h⟩
  · unfold KeyedByType at hk ⊢
    rw [h]
    exact hk
  · have h2 := SetCondition_keyed s c clk.filter hk
    unfold KeyedByType at h2 ⊢
    rw [h]
    exact h2

theorem UpdateJobPhase_restartExcludes (s : JobStatus) (p : JobPhase) (m : String)
    (clk : Clock) (hr : RestartExcludes s) : RestartExcludes (UpdateJobPhase s p m clk) := by
  rcases UpdateJobPhase_conditions_cases s p m clk with h | ⟨c, h⟩
  · unfold RestartExcludes ActiveRestarting NoTerminalMarker at hr ⊢
    rw [h]
    exact hr
  · have h2 := SetCondition_restartExcludes s c clk.filter hr
    unfold RestartExcludes ActiveRestarting NoTerminalMarker at h2 ⊢
    rw [h]
    exact h2

theorem UpdateJobPhase_completionTime_cases (s : JobStatus) (p : JobPhase) (m : String)
    (clk : Clock) :
    (UpdateJobPhase s p m clk).CompletionTime = s.CompletionTime ∨
      (UpdateJobPhase s p m clk).CompletionTime = none ∨
      (UpdateJobPhase s p m clk).CompletionTime = some clk.now := by
  rw [← phaseSwitch_completionTime s p m clk]
  unfold UpdateJobPhase
  generalize phaseSwitch s p m clk = s1
  simp only []
  split_ifs <;>
    first
      | exact Or.inr (Or.inl rfl)
      | exact Or.inr (Or.inr rfl)
      | exact Or.inl rfl

theorem phaseReachable_invariant (s : JobStatus) (h : PhaseReachable s) :
    RestartExcludes s ∧ s.CompletionTime ≠ some 0 := by
  induction h with
  | empty =>
    constructor
    · intro h2
      obtain ⟨r, hr, _⟩ := h2
      exact absurd hr (List.not_mem_nil r)
    · intro h2
      exact Option.noConfusion h2
  | updateJobPhase s p m clk _ ih =>
    refine ⟨UpdateJobPhase_restartExcludes s p m clk ih.1, ?_⟩
    rcases UpdateJobPhase_completionTime_cases s p m clk with h | h | h
    · rw [h]; exact ih.2
    · rw [h]; exact fun h2 => Option.noConfusion h2
    · rw [h]
      intro h2
      exact clk.now_ne_zero (Option.some.inj h2)

theorem phaseSwitch_restarting (s : JobStatus) (m : String) (clk : Clock) :
    phaseSwitch s Restarting m clk =
      SetCondition s (NewStateCondition JobRestarting "Job is restarting" m
        clk.condUpdate clk.condTransition) clk.filter := by
  have p1 : ¬ (Restarting = Pending ∨ Restarting = Inqueue) := by decide
  have p2 : ¬ (Restarting = Running) := by decide
  have p3 : ¬ (Restarting = Completed) := by decide
  have p4 : ¬ (Restarting = Failed ∨ Restarting = Terminated ∨ Restarting = Aborted) := by
    decide
  unfold phaseSwitch
  rw [if_neg p1, if_neg p2, if_neg p3, if_neg p4, if_pos rfl]

theorem UpdateJobPhase_completionTime_of (s : JobStatus) (p : JobPhase) (m : String)
    (clk : Clock) (h0 : s.CompletionTime ≠ some 0)
    (hre : HasCondition (phaseSwitch s p m clk) JobRestarting = true)
    (hsucc : HasCondition (phaseSwitch s p m clk) JobSucceed = false) :
    (UpdateJobPhase s p m clk).CompletionTime = none := by
  have hct := phaseSwitch_completionTime s p m clk
  rw [← hct] at h0
  clear hct
  unfold UpdateJobPhase
  generalize phaseSwitch s p m clk = s1 at hre hsucc h0 ⊢
  have hre2 : ∀ (a : JobPhase) (b c : Option Time),
      HasCondition { s1 with Phase := a, StartTime := b, CompletionTime := c } JobRestarting
        = true := fun _ _ _ => hre
  have hsucc2 : ∀ (a : JobPhase) (b c : Option Time),
      HasCondition { s1 with Phase := a, StartTime := b, CompletionTime := c } JobSucceed
        = false := fun _ _ _ => hsucc
  cases hc : s1.CompletionTime with
  | none =>
    simp only []
    split_ifs <;> simp_all [IsZero]
  | some t =>
    have ht : t ≠ 0 := fun h2 => h0 (by rw [hc, h2])
    simp only []
    split_ifs <;> simp_all [IsZero]

theorem SetCondition_then_unchanged (s : JobStatus) (c c2 : JobCondition) (now : Nat → Time)
    (hT : c2.Type_ = c.Type_) (hS : c2.Status = c.Status) (hR : c2.Reason = c.Reason) :
    Unchanged (SetCondition s c now) c2 := by
  rw [unchanged_iff]
  by_cases h : Unchanged s c
  · rw [SetCondition_unchanged s c now h]
    obtain ⟨cur, h1, h2, h3⟩ := (unchanged_iff s c).mp h
    exact ⟨cur, by rw [hT]; exact h1, by rw [hS]; exact h2, by rw [hR]; exact h3⟩
  · obtain ⟨c3, h1, h2, h3, _, h5⟩ := SetCondition_rebuilt s c now h
    rw [h5]
    refine ⟨c3, ?_, by rw [hS]; exact h2, by rw [hR]; exact h3⟩
    unfold GetCondition
    exact getConditionLoop_append c2.Type_ c3 (by rw [hT]; exact h1) _
      (fun x hx => by
        rw [hT, ← h1]
        exact filterLoop_type_ne c3 s.Conditions now x hx)

theorem noTerminalMarker_not_succeeded (s : JobStatus) (h : NoTerminalMarker s) :
    HasCondition s JobSucceed = false := by
  cases hc : HasCondition s JobSucceed with
  | false => rfl
  | true =>
    unfold HasCondition at hc
    obtain ⟨x, hx, hx2, _⟩ := (hasConditionLoop_iff JobSucceed s.Conditions).mp hc
    exact absurd hx2 (h x hx).2.1

theorem activeRestarting_iff (s : JobStatus) :
    HasCondition s JobRestarting = true ↔ ActiveRestarting s := by
  unfold HasCondition ActiveRestarting
  exact hasConditionLoop_iff JobRestarting s.Conditions

theorem HasCondition_UpdateJobPhase (s : JobStatus) (p : JobPhase) (m : String) (clk : Clock)
    (t : JobConditionType) :
    HasCondition (UpdateJobPhase s p m clk) t = HasCondition (phaseSwitch s p m clk) t := by
  unfold HasCondition
  rw [UpdateJobPhase_conditions]

theorem reachable_keyed (s : JobStatus) (h : Reachable s) : KeyedByType s := by
  induction h with
  | empty => exact List.nodup_nil
  | setCondition s c now _ ih => exact SetCondition_keyed s c now ih
  | updateJobPhase s p m clk _ ih => exact UpdateJobPhase_keyed s p m clk ih

/-! ## The policy engine: properties -/

/-- C1: a request whose Action is non-empty is answered with exactly that Action,
whatever its Event, ExitCode, TaskName and JobVersion and whatever the job declares. -/
theorem applyPolicies_explicit_action (job : Job) (req : Request) (h : req.Action ≠ "") :
    applyPolicies job req = req.Action := by
  have h0 : req.Action.length ≠ 0 := by rw [Ne, length_eq_zero_iff]; exact h
  unfold applyPolicies
  rw [if_pos h0]

/-- C1 at a request that also carries the out-of-sync event, a task name, an exit code
and an outdated version. -/
theorem applyPolicies_explicit_action_witness :
    explicitAbort.Action ≠ "" ∧ applyPolicies workerJob explicitAbort = AbortJobAction :=
  ⟨by decide, applyPolicies_explicit_action workerJob explicitAbort (by decide)⟩

/-- C2 as stated fails: an outdated request with an explicit Action is answered with
that Action, not with SyncJob. -/
theorem applyPolicies_stale_not_always_sync :
    ¬ ∀ (job : Job) (req : Request), req.JobVersion < job.Status.Version →
      applyPolicies job req = SyncJobAction := by
  intro h
  exact absurd (h versionOneJob staleRestart (by decide)) (by decide)

/-- C2, amended: a request with an empty Action whose JobVersion is strictly less than
the job's Status.Version is answered with SyncJob. -/
theorem applyPolicies_stale_sync (job : Job) (req : Request) (hA : req.Action = "")
    (hV : req.JobVersion < job.Status.Version) :
    applyPolicies job req = SyncJobAction := by
  have hA0 : ¬ req.Action.length ≠ 0 := by rw [Ne, length_eq_zero_iff]; exact fun h => h hA
  unfold applyPolicies
  simp only [hA0, hV, if_false, if_true]
  split <;> rfl

/-- C2, amended, at an outdated request whose event a job-level policy would match. -/
theorem applyPolicies_stale_sync_witness :
    staleFailed.Action = "" ∧ staleFailed.JobVersion < versionOneJob.Status.Version ∧
      applyPolicies versionOneJob staleFailed = SyncJobAction :=
  ⟨by decide, by decide, applyPolicies_stale_sync versionOneJob staleFailed (by decide) (by decide)⟩

/-- C3 as stated fails: when the request's TaskName is empty and equals the name of an
unnamed task, the task's policies are not consulted and the job-level policy decides. -/
theorem applyPolicies_task_precedence_unnamed :
    ¬ ∀ (job : Job) (req : Request) (k : Nat) (task : TaskSpec) (i : Nat)
        (p : LifecyclePolicy),
      req.Action = "" → req.Event ≠ "" → req.Event ≠ OutOfSyncEvent →
      job.Status.Version ≤ req.JobVersion →
      job.Spec.Tasks[k]? = some task → task.Name = req.TaskName →
      (∀ j u, j < k → job.Spec.Tasks[j]? = some u → u.Name ≠ req.TaskName) →
      task.Policies[i]? = some p → matchesRequest req p →
      (∀ j q, j < i → task.Policies[j]? = some q → ¬ matchesRequest req q) →
      applyPolicies job req = p.Action := by
  intro h
  have h1 := h unnamedTaskJob untargetedFailed 1 { Name := "", Policies := [restartOnFailed] } 0
    restartOnFailed (by decide) (by decide) (by decide) (by decide) (by decide) (by decide)
    (by
      intro j u hj hu
      have hj0 : j = 0 := by omega
      subst hj0
      have hu2 : u = { Name := "master" } := by
        have hu3 : some ({ Name := "master" } : TaskSpec) = some u := hu
        exact (Option.some.inj hu3).symm
      subst hu2
      decide)
    (by decide) (by decide)
    (by
      intro j q hj
      omega)
  exact absurd h1 (by decide)

/-- C3, amended: for a request with empty Action, an Event other than OutOfSync, a
JobVersion not below the job's and a non-empty TaskName, if the first task of that
name has a policy that matches the request, the answer is the Action of the first
matching policy of that task, whatever the job-level policies are. -/
theorem applyPolicies_task_precedence (job : Job) (req : Request) (k : Nat) (task : TaskSpec)
    (i : Nat) (p : LifecyclePolicy)
    (hA : req.Action = "") (hE : req.Event ≠ OutOfSyncEvent)
    (hV : job.Status.Version ≤ req.JobVersion) (hT : req.TaskName ≠ "")
    (hk : job.Spec.Tasks[k]? = some task) (hname : task.Name = req.TaskName)
    (hkfirst : ∀ j u, j < k → job.Spec.Tasks[j]? = some u → u.Name ≠ req.TaskName)
    (hi : task.Policies[i]? = some p) (hm : matchesRequest req p)
    (hifirst : ∀ j q, j < i → task.Policies[j]? = some q → ¬ matchesRequest req q) :
    applyPolicies job req = p.Action := by
  have hA0 : ¬ req.Action.length ≠ 0 := by rw [Ne, length_eq_zero_iff]; exact fun h => h hA
  have hT0 : req.TaskName.length ≠ 0 := by rw [Ne, length_eq_zero_iff]; exact hT
  have hV0 : ¬ req.JobVersion < job.Status.Version := not_lt.mpr hV
  unfold applyPolicies
  rw [if_neg hA0, if_neg hE, if_neg hV0, if_pos hT0]
  rw [taskLoop_first req job.Spec.Tasks k task hk hname hkfirst,
    policyLoop_first req task.Policies i p hi hm hifirst]

/-- C3, amended, at a job whose task "worker" restarts on "Failed" while the job-level
policy aborts on "Failed": the answer is RestartJob. -/
theorem applyPolicies_task_precedence_witness :
    workerFailed.Action = "" ∧ workerFailed.Event ≠ OutOfSyncEvent ∧
      workerJob.Status.Version ≤ workerFailed.JobVersion ∧ workerFailed.TaskName ≠ "" ∧
      matchesRequest workerFailed abortOnFailed ∧ abortOnFailed.Action ≠ RestartJobAction ∧
      applyPolicies workerJob workerFailed = RestartJobAction :=
  ⟨by decide, by decide, by decide, by decide, by decide, by decide,
    applyPolicies_task_precedence workerJob workerFailed 1
      { Name := "worker", Policies := [restartOnFailed] } 0 restartOnFailed
      (by decide) (by decide) (by decide) (by decide) (by decide) (by decide)
      (by
        intro j u hj hu
        have hj0 : j = 0 := by omega
        subst hj0
        have hu2 : u = { Name := "master" } := by
          have hu3 : some ({ Name := "master" } : TaskSpec) = some u := hu
          exact (Option.some.inj hu3).symm
        subst hu2
        decide)
      (by decide) (by decide)
      (by
        intro j q hj
        omega)⟩

/-- C4: for a request with empty Action, an Event other than OutOfSync, a JobVersion
not below the job's and an empty TaskName, the answer is the Action of the
lowest-index job-level policy that matches the request (by event set or by exit code),
and SyncJob when no policy matches; a policy with no events and a nil ExitCode matches
no request, and removing it from the list does not change the answer. -/
theorem applyPolicies_first_match_wins (job : Job) (req : Request) (hA : req.Action = "")
    (hE : req.Event ≠ OutOfSyncEvent) (hV : job.Status.Version ≤ req.JobVersion)
    (hT : req.TaskName = "") :
    (∀ (i : Nat) (p : LifecyclePolicy), job.Spec.Policies[i]? = some p →
      matchesRequest req p →
      (∀ (j : Nat) (q : LifecyclePolicy), j < i → job.Spec.Policies[j]? = some q →
        ¬ matchesRequest req q) →
      applyPolicies job req = p.Action) ∧
    ((∀ p ∈ job.Spec.Policies, ¬ matchesRequest req p) →
      applyPolicies job req = SyncJobAction) ∧
    (∀ p l1 l2, p.Events = [] → p.Event = "" → p.ExitCode = none →
      job.Spec.Policies = l1 ++ p :: l2 →
      ¬ matchesRequest req p ∧
      applyPolicies job req =
        applyPolicies { job with Spec := { job.Spec with Policies := l1 ++ l2 } } req) := by
  refine ⟨?_, ?_, ?_⟩
  · intro i p hi hm hfirst
    rw [applyPolicies_job_level job req hA hE hV hT,
      policyLoop_first req job.Spec.Policies i p hi hm hfirst]
    rfl
  · intro h
    rw [applyPolicies_job_level job req hA hE hV hT, policyLoop_none req job.Spec.Policies h]
    rfl
  · intro p l1 l2 h1 h2 h3 hl
    have hp : ¬ matchesRequest req p := emptyPolicy_no_match req p h1 h2 h3
    refine ⟨hp, ?_⟩
    rw [applyPolicies_job_level job req hA hE hV hT,
      applyPolicies_job_level { job with Spec := { job.Spec with Policies := l1 ++ l2 } } req
        hA hE hV hT, hl, policyLoop_skip req p hp l1 l2]

/-- C4 at a job whose policies are an empty policy, a policy on exit code 3 and a
policy on event "Failed": a request with event "Failed" and exit code 3 is answered by
the exit-code policy, the first that matches. -/
theorem applyPolicies_first_match_wins_witness :
    failedExit3.Action = "" ∧ failedExit3.Event ≠ OutOfSyncEvent ∧
      threePolicyJob.Status.Version ≤ failedExit3.JobVersion ∧ failedExit3.TaskName = "" ∧
      matchesRequest failedExit3 restartOnFailed ∧
      applyPolicies threePolicyJob failedExit3 = AbortJobAction :=
  ⟨by decide, by decide, by decide, by decide, by decide,
    (applyPolicies_first_match_wins threePolicyJob failedExit3 (by decide) (by decide)
      (by decide) (by decide)).1 1 abortOnExit3 (by decide) (by decide)
      (by
        intro j q hj hq
        have hj0 : j = 0 := by omega
        subst hj0
        have hq2 : q = emptyPolicy := by
          have hq3 : some emptyPolicy = some q := hq
          exact (Option.some.inj hq3).symm
        subst hq2
        decide)⟩

/-! ## Conditions and phases: properties -/

/-- C5: SetCondition is idempotent. A second call with a condition of the same Type,
Status and Reason (timestamps and Message may differ) leaves the status unchanged, so
the length of the condition sequence and the LastTransitionTime of that Type's entry,
which exists, are the same after the second call as after the first. -/
theorem SetCondition_idempotent (s : JobStatus) (c c2 : JobCondition) (now now2 : Nat → Time)
    (hT : c2.Type_ = c.Type_) (hS : c2.Status = c.Status) (hR : c2.Reason = c.Reason) :
    SetCondition (SetCondition s c now) c2 now2 = SetCondition s c now ∧
    (SetCondition (SetCondition s c now) c2 now2).Conditions.length =
      (SetCondition s c now).Conditions.length ∧
    (GetCondition (SetCondition s c now) c.Type_).isSome = true ∧
    (GetCondition (SetCondition (SetCondition s c now) c2 now2) c.Type_).map
        (fun x => x.LastTransitionTime) =
      (GetCondition (SetCondition s c now) c.Type_).map (fun x => x.LastTransitionTime) := by
  have hu := SetCondition_then_unchanged s c c2 now hT hS hR
  have he := SetCondition_unchanged (SetCondition s c now) c2 now2 hu
  refine ⟨he, by rw [he], ?_, by rw [he]⟩
  obtain ⟨cur, h1, _, _⟩ := (unchanged_iff _ _).mp hu
  rw [← hT, h1]
  rfl

/-- C5 at a status that holds a Succeeded entry: a Restarting condition is set at time
7 and again, with another message, at time 9. -/
theorem SetCondition_idempotent_witness :
    restartConditionLater.Type_ = restartCondition.Type_ ∧
    restartConditionLater.Status = restartCondition.Status ∧
    restartConditionLater.Reason = restartCondition.Reason ∧
    restartConditionLater.Message ≠ restartCondition.Message ∧
    SetCondition (SetCondition completedStatus restartCondition (fun _ => 8))
        restartConditionLater (fun _ => 10) =
      SetCondition completedStatus restartCondition (fun _ => 8) :=
  ⟨by decide, by decide, by decide, by decide,
    (SetCondition_idempotent completedStatus restartCondition restartConditionLater
      (fun _ => 8) (fun _ => 10) (by decide) (by decide) (by decide)).1⟩

/-- C6 as stated fails: on a status whose first Restarting entry is already active with
the same Reason, setting an active Restarting condition changes nothing and a Succeeded
entry of the status stays. -/
theorem SetCondition_restart_keeps_succeeded :
    ¬ ∀ (s : JobStatus) (c : JobCondition) (now : Nat → Time),
      (∃ x ∈ s.Conditions, x.Type_ = JobSucceed) →
      c.Type_ = JobRestarting → c.Status = ConditionTrue →
      ∀ x ∈ (SetCondition s c now).Conditions,
        x.Type_ ≠ JobSucceed ∧ x.Type_ ≠ JobScheduled ∧ x.Type_ ≠ JobStopped := by
  intro h
  have h1 := h restartingAndSucceeded restartCondition (fun _ => 8) (by decide) (by decide)
    (by decide)
  exact absurd h1 (by decide)

/-- C6, amended: setting an active Restarting condition yields a sequence with no
Scheduled, Succeeded or Stopped entry, unless the first Restarting entry of the status
already has the same Status and Reason, in which case the call changes nothing; on a
status in which an active Restarting entry excludes those entries the result has none
of them in either case. -/
theorem SetCondition_restart_drops_markers (s : JobStatus) (c : JobCondition)
    (now : Nat → Time) (hT : c.Type_ = JobRestarting) (hS : c.Status = ConditionTrue) :
    (¬ Unchanged s c → NoTerminalMarker (SetCondition s c now)) ∧
    (Unchanged s c → SetCondition s c now = s) ∧
    (RestartExcludes s → NoTerminalMarker (SetCondition s c now)) := by
  have hact : ActiveRestarting (SetCondition s c now) := by
    rw [← activeRestarting_iff, ← hT]
    exact SetCondition_hasCondition s c now hS
  have hgen : RestartExcludes (SetCondition s c now) → NoTerminalMarker (SetCondition s c now) :=
    fun h => h hact
  refine ⟨?_, SetCondition_unchanged s c now, fun h => hgen (SetCondition_restartExcludes s c now h)⟩
  intro hu
  obtain ⟨c2, h1, h2, _, _, h5⟩ := SetCondition_rebuilt s c now hu
  rw [h5]
  intro x hx
  have hx2 : x ∈ filterLoop c2 now s.Conditions ++ [c2] := hx
  rcases List.mem_append.mp hx2 with h6 | h6
  · exact filterLoop_restart_drops c2 (h1.trans hT) (h2.trans hS) s.Conditions now x h6
  · rw [List.mem_singleton] at h6
    rw [h6, h1, hT]
    exact ⟨condition_constants_distinct.1, condition_constants_distinct.2.1,
      condition_constants_distinct.2.2.1⟩

/-- C6, amended, at the status reached by the phases Pending and Completed, which holds
a Succeeded entry and no Restarting entry. -/
theorem SetCondition_restart_drops_markers_witness :
    (∃ x ∈ completedStatus.Conditions, x.Type_ = JobSucceed) ∧
    restartCondition.Type_ = JobRestarting ∧ restartCondition.Status = ConditionTrue ∧
    ¬ Unchanged completedStatus restartCondition ∧
    NoTerminalMarker (SetCondition completedStatus restartCondition (fun _ => 8)) :=
  ⟨by decide, by decide, by decide, by decide,
    (SetCondition_restart_drops_markers completedStatus restartCondition (fun _ => 8)
      (by decide) (by decide)).1 (by decide)⟩

/-- C7 as stated fails: on the status reached by the phases Pending and Restarting,
setting the Created condition again changes nothing, so the Restarting entry stays
active and the sequence holds no inactive Restarting entry. -/
theorem SetCondition_other_keeps_restarting :
    ¬ ∀ (s : JobStatus) (c : JobCondition) (now : Nat → Time),
      ActiveRestarting s → c.Type_ ≠ JobRestarting →
      ∃ r ∈ (SetCondition s c now).Conditions, r.Type_ = JobRestarting ∧
        r.Status = ConditionFalse ∧ r.Reason = "Job finished restarting." ∧ r.Message = "" := by
  intro h
  have h1 := h restartedStatus createdCondition (fun _ => 8) (by decide) (by decide)
  exact absurd h1 (by decide)

/-- C7, amended: when a condition of another Type than Restarting is set and the call
is not a no-op (the status has no entry of that Type, or its first entry of that Type
differs in Status or Reason), every active Restarting entry of the status is kept as an
inactive entry (Status false, Reason "Job finished restarting.", Message empty, same
LastTransitionTime) and no active Restarting entry is left; when the call is a no-op
the status is unchanged. -/
theorem SetCondition_other_flips_restarting (s : JobStatus) (c : JobCondition)
    (now : Nat → Time) (hT : c.Type_ ≠ JobRestarting) :
    (¬ Unchanged s c →
      (∀ r ∈ s.Conditions, r.Type_ = JobRestarting → r.Status = ConditionTrue →
        ∃ r2 ∈ (SetCondition s c now).Conditions, r2.Type_ = JobRestarting ∧
          r2.Status = ConditionFalse ∧ r2.Reason = "Job finished restarting." ∧
          r2.Message = "" ∧ r2.LastTransitionTime = r.LastTransitionTime) ∧
      HasCondition (SetCondition s c now) JobRestarting = false) ∧
    (Unchanged s c → SetCondition s c now = s) := by
  refine ⟨?_, SetCondition_unchanged s c now⟩
  intro hu
  obtain ⟨c2, h1, _, _, _, h5⟩ := SetCondition_rebuilt s c now hu
  have hT2 : c2.Type_ ≠ JobRestarting := fun h => hT (h1.symm.trans h)
  rw [h5]
  constructor
  · intro r hr hrT hrS
    obtain ⟨r2, hr2, hprops⟩ := filterLoop_flips c2 hT2 r hrT hrS s.Conditions now hr
    exact ⟨r2, List.mem_append_left _ hr2, hprops⟩
  · cases hc : HasCondition
        { s with Conditions := filterLoop c2 now s.Conditions ++ [c2] } JobRestarting with
    | false => rfl
    | true =>
      obtain ⟨x, hx, hxT, hxS⟩ := (activeRestarting_iff _).mp hc
      have hx2 : x ∈ filterLoop c2 now s.Conditions ++ [c2] := hx
      rcases List.mem_append.mp hx2 with h6 | h6
      · exact absurd hxS (filterLoop_no_active_restart c2 hT2 s.Conditions now x h6 hxT)
      · rw [List.mem_singleton] at h6
        rw [h6] at hxT
        exact absurd hxT hT2

/-- C7, amended, at the status reached by the phases Pending and Restarting: setting
the Scheduled condition leaves no active Restarting entry. -/
theorem SetCondition_other_flips_restarting_witness :
    ActiveRestarting restartedStatus ∧ scheduledCondition.Type_ ≠ JobRestarting ∧
    ¬ Unchanged restartedStatus scheduledCondition ∧
    HasCondition (SetCondition restartedStatus scheduledCondition (fun _ => 8)) JobRestarting
      = false :=
  ⟨by decide, by decide, by decide,
    ((SetCondition_other_flips_restarting restartedStatus scheduledCondition (fun _ => 8)
      (by decide)).1 (by decide)).2⟩

/-- C8: after UpdateJobPhase the Phase is the new phase; a mapped phase (Pending or
Inqueue to Created, Running to Scheduled, Completed to Succeeded, Failed, Terminated or
Aborted to Stopped, Restarting to Restarting) leaves its condition type active, and any
other phase leaves the condition sequence unchanged. -/
theorem UpdateJobPhase_phase_and_condition (s : JobStatus) (p : JobPhase) (m : String)
    (clk : Clock) :
    (UpdateJobPhase s p m clk).Phase = p ∧
    (p = Pending ∨ p = Inqueue → HasCondition (UpdateJobPhase s p m clk) JobCreated = true) ∧
    (p = Running → HasCondition (UpdateJobPhase s p m clk) JobScheduled = true) ∧
    (p = Completed → HasCondition (UpdateJobPhase s p m clk) JobSucceed = true) ∧
    (p = Failed ∨ p = Terminated ∨ p = Aborted →
      HasCondition (UpdateJobPhase s p m clk) JobStopped = true) ∧
    (p = Restarting → HasCondition (UpdateJobPhase s p m clk) JobRestarting = true) ∧
    (p ≠ Pending → p ≠ Inqueue → p ≠ Running → p ≠ Completed → p ≠ Failed →
      p ≠ Terminated → p ≠ Aborted → p ≠ Restarting →
      (UpdateJobPhase s p m clk).Conditions = s.Conditions) := by
  refine ⟨UpdateJobPhase_phase s p m clk, ?_, ?_, ?_, ?_, ?_, ?_⟩
  · intro h
    rw [HasCondition_UpdateJobPhase]
    unfold phaseSwitch
    rw [if_pos h]
    exact SetCondition_hasCondition s _ clk.filter rfl
  · intro h
    subst h
    rw [HasCondition_UpdateJobPhase]
    unfold phaseSwitch
    rw [if_neg (by decide), if_pos rfl]
    exact SetCondition_hasCondition s _ clk.filter rfl
  · intro h
    subst h
    rw [HasCondition_UpdateJobPhase]
    unfold phaseSwitch
    rw [if_neg (by decide), if_neg (by decide), if_pos rfl]
    exact SetCondition_hasCondition s _ clk.filter rfl
  · intro h
    have h1 : ¬ (p = Pending ∨ p = Inqueue) := by
      rcases h with h | h | h <;> subst h <;> decide
    have h2 : ¬ (p = Running) := by
      rcases h with h | h | h <;> subst h <;> decide
    have h3 : ¬ (p = Completed) := by
      rcases h with h | h | h <;> subst h <;> decide
    rw [HasCondition_UpdateJobPhase]
    unfold phaseSwitch
    rw [if_neg h1, if_neg h2, if_neg h3, if_pos h]
    exact SetCondition_hasCondition s _ clk.filter rfl
  · intro h
    subst h
    rw [HasCondition_UpdateJobPhase, phaseSwitch_restarting]
    exact SetCondition_hasCondition s _ clk.filter rfl
  · intro h1 h2 h3 h4 h5 h6 h7 h8
    rw [UpdateJobPhase_conditions]
    unfold phaseSwitch
    rw [if_neg (fun h => h.elim h1 h2), if_neg h3, if_neg h4,
      if_neg (fun h => h.elim h5 (fun h => h.elim h6 h7)), if_neg h8]

/-- C8 at the phase Completed on the empty status, and at the unmapped phase
"Aborting". -/
theorem UpdateJobPhase_phase_and_condition_witness :
    (UpdateJobPhase {} Completed "done" { now := 5 }).Phase = Completed ∧
    HasCondition (UpdateJobPhase {} Completed "done" { now := 5 }) JobSucceed = true ∧
    (UpdateJobPhase completedStatus "Aborting" "" { now := 6 }).Conditions =
      completedStatus.Conditions :=
  ⟨(UpdateJobPhase_phase_and_condition {} Completed "done" { now := 5 }).1,
    (UpdateJobPhase_phase_and_condition {} Completed "done" { now := 5 }).2.2.2.1 rfl,
    (UpdateJobPhase_phase_and_condition completedStatus "Aborting" "" { now := 6 }).2.2.2.2.2.2
      (by decide) (by decide) (by decide) (by decide) (by decide) (by decide) (by decide)
      (by decide)⟩

/-- C9: on every status reached from the empty status by UpdateJobPhase calls, a further
call with the phase Restarting leaves CompletionTime unset (nil), whether or not it was
set before the call. -/
theorem UpdateJobPhase_restart_unsets_completion (s : JobStatus) (h : PhaseReachable s)
    (m : String) (clk : Clock) :
    (UpdateJobPhase s Restarting m clk).CompletionTime = none := by
  have inv := phaseReachable_invariant s h
  have hre : HasCondition (phaseSwitch s Restarting m clk) JobRestarting = true := by
    rw [phaseSwitch_restarting]
    exact SetCondition_hasCondition s _ clk.filter rfl
  apply UpdateJobPhase_completionTime_of s Restarting m clk inv.2 hre
  apply noTerminalMarker_not_succeeded
  have hex : RestartExcludes (phaseSwitch s Restarting m clk) := by
    rw [phaseSwitch_restarting]
    exact SetCondition_restartExcludes s _ clk.filter inv.1
  exact hex ((activeRestarting_iff _).mp hre)

/-- C9 at the status reached by the phases Pending and Completed, whose CompletionTime
is set to 5. -/
theorem UpdateJobPhase_restart_unsets_completion_witness :
    PhaseReachable completedStatus ∧ completedStatus.CompletionTime = some 5 ∧
    (UpdateJobPhase completedStatus Restarting "again" { now := 7 }).CompletionTime = none :=
  ⟨PhaseReachable.updateJobPhase _ _ _ _ (PhaseReachable.updateJobPhase _ _ _ _
      PhaseReachable.empty),
    by decide,
    UpdateJobPhase_restart_unsets_completion completedStatus
      (PhaseReachable.updateJobPhase _ _ _ _ (PhaseReachable.updateJobPhase _ _ _ _
        PhaseReachable.empty)) "again" { now := 7 }⟩

/-- C10: the condition history stays keyed by Type. If a status has at most one entry
per Type, so has the status after SetCondition; and every status reached from the empty
status by SetCondition and UpdateJobPhase calls has at most one entry per Type. -/
theorem SetCondition_keeps_keyedByType (s : JobStatus) (c : JobCondition) (now : Nat → Time) :
    (KeyedByType s → KeyedByType (SetCondition s c now)) ∧ (Reachable s → KeyedByType s) :=
  ⟨SetCondition_keyed s c now, reachable_keyed s⟩

/-- C10 at the status reached by the phases Pending and Restarting, and at that status
after the Scheduled condition is set. -/
theorem SetCondition_keeps_keyedByType_witness :
    Reachable restartedStatus ∧ KeyedByType restartedStatus ∧
    KeyedByType (SetCondition restartedStatus scheduledCondition (fun _ => 8)) :=
  ⟨Reachable.updateJobPhase _ _ _ _ (Reachable.updateJobPhase _ _ _ _ Reachable.empty),
    (SetCondition_keeps_keyedByType restartedStatus scheduledCondition (fun _ => 8)).2
      (Reachable.updateJobPhase _ _ _ _ (Reachable.updateJobPhase _ _ _ _ Reachable.empty)),
    (SetCondition_keeps_keyedByType restartedStatus scheduledCondition (fun _ => 8)).1
      (by decide)⟩

/-! ## The policy engine: exit codes, wildcard and fall-through -/

theorem matchesRequest_congr (req req2 : Request) (hE : req2.Event = req.Event)
    (hX : req2.ExitCode = req.ExitCode) (p : LifecyclePolicy) :
    matchesRequest req2 p ↔ matchesRequest req p := by
  unfold matchesRequest matchesByEvent matchesByExitCode
  rw [hE, hX]

theorem policyLoop_congr (req req2 : Request) (hE : req2.Event = req.Event)
    (hX : req2.ExitCode = req.ExitCode) :
    ∀ (ps : List LifecyclePolicy), policyLoop req2 ps = policyLoop req ps := by
  intro ps
  induction ps with
  | nil => rfl
  | cons p rest ih =>
    rw [policyLoop_cons, policyLoop_cons, ih]
    by_cases h : matchesRequest req p
    · rw [if_pos h, if_pos ((matchesRequest_congr req req2 hE hX p).mpr h)]
    · rw [if_neg h, if_neg (fun h2 => h ((matchesRequest_congr req req2 hE hX p).mp h2))]

theorem taskLoop_none (req : Request) :
    ∀ (ts : List TaskSpec), (∀ t ∈ ts, t.Name ≠ req.TaskName) → taskLoop req ts = none := by
  intro ts
  induction ts with
  | nil => intro _; rfl
  | cons x xs ih =>
    intro h
    have hx : x.Name ≠ req.TaskName := h x (List.mem_cons_self _ _)
    simp only [taskLoop, hx, if_false]
    exact ih (fun t ht => h t (List.mem_cons_of_mem _ ht))

theorem taskLoop_append (req : Request) (t : TaskSpec) (ht : t.Name = req.TaskName)
    (post : List TaskSpec) :
    ∀ (pre : List TaskSpec), (∀ u ∈ pre, u.Name ≠ req.TaskName) →
      taskLoop req (pre ++ t :: post) = policyLoop req t.Policies := by
  intro pre
  induction pre with
  | nil =>
    intro _
    simp only [List.nil_append, taskLoop, ht, if_true]
  | cons x xs ih =>
    intro h
    have hx : x.Name ≠ req.TaskName := h x (List.mem_cons_self _ _)
    simp only [List.cons_append, taskLoop, hx, if_false]
    exact ih (fun u hu => h u (List.mem_cons_of_mem _ hu))

theorem applyPolicies_matching (job : Job) (req : Request) (hA : req.Action = "")
    (hE : req.Event ≠ OutOfSyncEvent) (hV : job.Status.Version ≤ req.JobVersion) :
    applyPolicies job req =
      match (if req.TaskName.length ≠ 0 then taskLoop req job.Spec.Tasks else none) with
      | some action => action
      | none => (policyLoop req job.Spec.Policies).getD SyncJobAction := by
  have hA0 : ¬ req.Action.length ≠ 0 := by rw [Ne, length_eq_zero_iff]; exact fun h => h hA
  have hV0 : ¬ req.JobVersion < job.Status.Version := not_lt.mpr hV
  unfold applyPolicies
  rw [if_neg hA0, if_neg hE, if_neg hV0]
  cases (if req.TaskName.length ≠ 0 then taskLoop req job.Spec.Tasks else none) with
  | some a => rfl
  | none => cases policyLoop req job.Spec.Policies <;> rfl

theorem applyPolicies_of_taskLoop_none (job : Job) (req : Request) (hA : req.Action = "")
    (hE : req.Event ≠ OutOfSyncEvent) (hV : job.Status.Version ≤ req.JobVersion)
    (hnone : taskLoop req job.Spec.Tasks = none) :
    applyPolicies job req = (policyLoop req job.Spec.Policies).getD SyncJobAction := by
  rw [applyPolicies_matching job req hA hE hV, hnone]
  split_ifs <;> rfl

theorem applyPolicies_cleared (job : Job) (req : Request) (hA : req.Action = "")
    (hE : req.Event ≠ OutOfSyncEvent) (hV : job.Status.Version ≤ req.JobVersion) :
    applyPolicies job { req with TaskName := "" } =
      (policyLoop req job.Spec.Policies).getD SyncJobAction := by
  rw [applyPolicies_job_level job { req with TaskName := "" } hA hE hV rfl,
    policyLoop_congr req { req with TaskName := "" } rfl rfl]

theorem wildcard_matches (req : Request) (p : LifecyclePolicy) (hE : req.Event ≠ "")
    (hw : inEventSet p AnyEvent) : matchesRequest req p :=
  Or.inl ⟨hE, Or.inr hw⟩

/-- C17: for a request with empty Action, an Event other than OutOfSync and a JobVersion
not below the job's, if no task is named by the request's TaskName, or the first task of
that name has no policy matching the request, the answer is the answer to the same
request with its TaskName cleared: the job-level policies decide; and the tasks that
follow the first task of that name have no influence on the answer. -/
theorem applyPolicies_fall_through (job : Job) (req : Request) (hA : req.Action = "")
    (hE : req.Event ≠ OutOfSyncEvent) (hV : job.Status.Version ≤ req.JobVersion) :
    ((∀ t ∈ job.Spec.Tasks, t.Name ≠ req.TaskName) →
      applyPolicies job req = applyPolicies job { req with TaskName := "" }) ∧
    (∀ (k : Nat) (task : TaskSpec), job.Spec.Tasks[k]? = some task →
      task.Name = req.TaskName →
      (∀ j u, j < k → job.Spec.Tasks[j]? = some u → u.Name ≠ req.TaskName) →
      (∀ p ∈ task.Policies, ¬ matchesRequest req p) →
      applyPolicies job req = applyPolicies job { req with TaskName := "" }) ∧
    (∀ (pre post post2 : List TaskSpec) (task : TaskSpec),
      job.Spec.Tasks = pre ++ task :: post → task.Name = req.TaskName →
      (∀ u ∈ pre, u.Name ≠ req.TaskName) →
      applyPolicies job req =
        applyPolicies { job with Spec := { job.Spec with Tasks := pre ++ task :: post2 } }
          req) := by
  refine ⟨?_, ?_, ?_⟩
  · intro h
    rw [applyPolicies_cleared job req hA hE hV]
    exact applyPolicies_of_taskLoop_none job req hA hE hV (taskLoop_none req _ h)
  · intro k task hk hname hfirst hnone
    rw [applyPolicies_cleared job req hA hE hV]
    apply applyPolicies_of_taskLoop_none job req hA hE hV
    rw [taskLoop_first req job.Spec.Tasks k task hk hname hfirst]
    exact policyLoop_none req task.Policies hnone
  · intro pre post post2 task hsplit hname hpre
    rw [applyPolicies_matching job req hA hE hV,
      applyPolicies_matching { job with Spec := { job.Spec with Tasks := pre ++ task :: post2 } }
        req hA hE hV, hsplit]
    show (match (if req.TaskName.length ≠ 0 then taskLoop req (pre ++ task :: post) else none) with
      | some action => action
      | none => (policyLoop req job.Spec.Policies).getD SyncJobAction) =
      (match (if req.TaskName.length ≠ 0 then taskLoop req (pre ++ task :: post2) else none) with
      | some action => action
      | none => (policyLoop req job.Spec.Policies).getD SyncJobAction)
    rw [taskLoop_append req task hname post pre hpre, taskLoop_append req task hname post2 pre hpre]

/-- C17 at a request for a task the job does not have, and at a job with two tasks named
"worker" of which the first has no matching policy: the job-level policy aborts. -/
theorem applyPolicies_fall_through_witness :
    ghostFailed.Action = "" ∧ ghostFailed.Event ≠ OutOfSyncEvent ∧
    workerJob.Status.Version ≤ ghostFailed.JobVersion ∧
    (∀ t ∈ workerJob.Spec.Tasks, t.Name ≠ ghostFailed.TaskName) ∧
    applyPolicies workerJob ghostFailed = applyPolicies workerJob untargetedFailed ∧
    applyPolicies twoWorkersJob workerFailed = AbortJobAction :=
  ⟨by decide, by decide, by decide, by decide,
    (applyPolicies_fall_through workerJob ghostFailed (by decide) (by decide) (by decide)).1
      (by decide),
    ((applyPolicies_fall_through twoWorkersJob workerFailed (by decide) (by decide)
      (by decide)).2.1 0 { Name := "worker", Policies := [abortOnExit3] } (by decide)
      (by decide) (fun j _ hj _ => absurd hj (Nat.not_lt_zero j)) (by decide)).trans
      (by decide)⟩

/-! ## Pod synthesis: lemmas -/

theorem volumeLoop_cons_old (job : Job) (u : VolumeSpec) (rest : List VolumeSpec)
    (vm : List String) (spec : PodSpec) (h : u.VolumeClaimName ∈ vm) :
    volumeLoop job (u :: rest) vm spec =
      volumeLoop job rest vm
        { spec with
          Containers := mountLoop { MountPath := u.MountPath, Name := u.VolumeClaimName }
            spec.Containers } := by
  have h2 : ¬ u.VolumeClaimName ∉ vm := fun h3 => h3 h
  simp only [volumeLoop, h2, if_false]

theorem volumeLoop_cons_fresh (job : Job) (u : VolumeSpec) (rest : List VolumeSpec)
    (vm : List String) (spec : PodSpec) (h : u.VolumeClaimName ∉ vm) :
    volumeLoop job (u :: rest) vm spec =
      volumeLoop job rest (u.VolumeClaimName :: vm)
        { spec with
          Volumes := spec.Volumes ++
            [if markedEmptyDir job u.VolumeClaimName ∧ u.VolumeClaim = none then
              { Name := u.VolumeClaimName, EmptyDir := some {} }
            else
              { Name := u.VolumeClaimName,
                PersistentVolumeClaim := some { ClaimName := u.VolumeClaimName } }]
          Containers := mountLoop { MountPath := u.MountPath, Name := u.VolumeClaimName }
            spec.Containers } := by
  by_cases hm : markedEmptyDir job u.VolumeClaimName ∧ u.VolumeClaim = none
  · have hm2 : mapHas job.Status.ControlledResources ("volume-emptyDir-" ++ u.VolumeClaimName)
        = true ∧ u.VolumeClaim = none := hm
    rw [if_pos hm]
    simp only [volumeLoop, h, not_false_eq_true, hm2, and_self, if_true]
  · have hm2 : ¬ (mapHas job.Status.ControlledResources
        ("volume-emptyDir-" ++ u.VolumeClaimName) = true ∧ u.VolumeClaim = none) := hm
    rw [if_neg hm]
    simp only [volumeLoop, h, not_false_eq_true, hm2, if_true, if_false]

theorem volumeLoop_cons_new (job : Job) (u : VolumeSpec) (rest : List VolumeSpec)
    (vm : List String) (spec : PodSpec) (h : u.VolumeClaimName ∉ vm) :
    ∃ nv : Volume, nv.Name = u.VolumeClaimName ∧
      ((markedEmptyDir job u.VolumeClaimName ∧ u.VolumeClaim = none ∧
          nv = { Name := u.VolumeClaimName, EmptyDir := some {} }) ∨
        (¬ (markedEmptyDir job u.VolumeClaimName ∧ u.VolumeClaim = none) ∧
          nv = { Name := u.VolumeClaimName,
                 PersistentVolumeClaim := some { ClaimName := u.VolumeClaimName } })) ∧
      volumeLoop job (u :: rest) vm spec =
        volumeLoop job rest (u.VolumeClaimName :: vm)
          { spec with
            Volumes := spec.Volumes ++ [nv]
            Containers := mountLoop { MountPath := u.MountPath, Name := u.VolumeClaimName }
              spec.Containers } := by
  refine ⟨_, ?_, ?_, volumeLoop_cons_fresh job u rest vm spec h⟩
  · split_ifs <;> rfl
  · by_cases hm : markedEmptyDir job u.VolumeClaimName ∧ u.VolumeClaim = none
    · rw [if_pos hm]
      exact Or.inl ⟨hm.1, hm.2, rfl⟩
    · rw [if_neg hm]
      exact Or.inr ⟨hm, rfl⟩

theorem volumeLoop_volumes (job : Job) :
    ∀ (vols : List VolumeSpec) (vm : List String) (spec : PodSpec),
      ∃ A : List Volume, (volumeLoop job vols vm spec).Volumes = spec.Volumes ++ A ∧
        (A.map (fun v => v.Name)).Nodup ∧
        (∀ n, n ∈ A.map (fun v => v.Name) ↔
          (n ∈ vols.map (fun v => v.VolumeClaimName) ∧ n ∉ vm)) ∧
        List.Pairwise (fun a b =>
          List.indexOf a (vols.map (fun v => v.VolumeClaimName)) <
            List.indexOf b (vols.map (fun v => v.VolumeClaimName)))
          (A.map (fun v => v.Name)) ∧
        ∀ v ∈ A, ∃ d, vols.find? (fun d => d.VolumeClaimName == v.Name) = some d ∧
          ((markedEmptyDir job v.Name ∧ d.VolumeClaim = none ∧
              v = { Name := v.Name, EmptyDir := some {} }) ∨
            (¬ (markedEmptyDir job v.Name ∧ d.VolumeClaim = none) ∧
              v = { Name := v.Name,
                    PersistentVolumeClaim := some { ClaimName := v.Name } })) := by
  intro vols
  induction vols with
  | nil =>
    intro vm spec
    refine ⟨[], ?_, List.nodup_nil, ?_, List.Pairwise.nil, ?_⟩
    · simp [volumeLoop]
    · intro n; simp
    · intro v hv; exact absurd hv (List.not_mem_nil v)
  | cons u rest ih =>
    intro vm spec
    have shift : ∀ (a : String), a ≠ u.VolumeClaimName →
        List.indexOf a ((u :: rest).map (fun v => v.VolumeClaimName)) =
          List.indexOf a (rest.map (fun v => v.VolumeClaimName)) + 1 := by
      intro a ha
      rw [List.map_cons, List.indexOf_cons_ne _ (fun h => ha h.symm)]
    by_cases h : u.VolumeClaimName ∈ vm
    · rw [volumeLoop_cons_old job u rest vm spec h]
      obtain ⟨A, hA, hnd, hmem, hpw, hshape⟩ := ih vm
        { spec with
          Containers := mountLoop { MountPath := u.MountPath, Name := u.VolumeClaimName }
            spec.Containers }
      have hne : ∀ a ∈ A.map (fun v => v.Name), a ≠ u.VolumeClaimName := by
        intro a ha hau
        exact ((hmem a).mp ha).2 (hau ▸ h)
      refine ⟨A, hA, hnd, ?_, ?_, ?_⟩
      · intro n
        rw [hmem n, List.map_cons, List.mem_cons]
        constructor
        · rintro ⟨h1, h2⟩
          exact ⟨Or.inr h1, h2⟩
        · rintro ⟨h1 | h1, h2⟩
          · exact absurd (h1 ▸ h) h2
          · exact ⟨h1, h2⟩
      · refine hpw.imp_of_mem ?_
        intro a b ha hb hab
        rw [shift a (hne a ha), shift b (hne b hb)]
        exact Nat.succ_lt_succ hab
      · intro v hv
        obtain ⟨d, hd, hs⟩ := hshape v hv
        refine ⟨d, ?_, hs⟩
        have hvn : v.Name ≠ u.VolumeClaimName :=
          hne v.Name (List.mem_map.mpr ⟨v, hv, rfl⟩)
        rw [List.find?_cons]
        have hb : (u.VolumeClaimName == v.Name) = false := by
          rw [beq_eq_false_iff_ne]
          exact fun h2 => hvn h2.symm
        rw [hb]
        exact hd
    · obtain ⟨nv, hnvn, hnvs, hstep⟩ := volumeLoop_cons_new job u rest vm spec h
      rw [hstep]
      obtain ⟨A, hA, hnd, hmem, hpw, hshape⟩ := ih (u.VolumeClaimName :: vm)
        { spec with
          Volumes := spec.Volumes ++ [nv]
          Containers := mountLoop { MountPath := u.MountPath, Name := u.VolumeClaimName }
            spec.Containers }
      have hne : ∀ a ∈ A.map (fun v => v.Name), a ≠ u.VolumeClaimName := by
        intro a ha hau
        exact ((hmem a).mp ha).2 (hau ▸ List.mem_cons_self _ _)
      refine ⟨nv :: A, ?_, ?_, ?_, ?_, ?_⟩
      · rw [hA]
        simp
      · rw [List.map_cons, List.nodup_cons]
        refine ⟨?_, hnd⟩
        intro hin
        exact hne nv.Name hin hnvn
      · intro n
        simp only [List.map_cons, List.mem_cons, hmem n, hnvn]
        by_cases hnu : n = u.VolumeClaimName
        · subst hnu
          simp [h]
        · simp [hnu]
      · show List.Pairwise _ (nv.Name :: A.map (fun v => v.Name))
        rw [List.pairwise_cons]
        constructor
        · intro b hb
          rw [hnvn, shift b (hne b hb), List.map_cons, List.indexOf_cons_self]
          exact Nat.succ_pos _
        · refine hpw.imp_of_mem ?_
          intro a b ha hb hab
          rw [shift a (hne a ha), shift b (hne b hb)]
          exact Nat.succ_lt_succ hab
      · intro v hv
        rcases List.mem_cons.mp hv with hv1 | hv1
        · subst hv1
          refine ⟨u, ?_, ?_⟩
          · rw [List.find?_cons]
            have hb : (u.VolumeClaimName == v.Name) = true := by
              rw [beq_iff_eq]
              exact hnvn.symm
            rw [hb]
          · rw [hnvn]
            exact hnvs
        · obtain ⟨d, hd, hs⟩ := hshape v hv1
          refine ⟨d, ?_, hs⟩
          have hvn : v.Name ≠ u.VolumeClaimName :=
            hne v.Name (List.mem_map.mpr ⟨v, hv1, rfl⟩)
          rw [List.find?_cons]
          have hb : (u.VolumeClaimName == v.Name) = false := by
            rw [beq_eq_false_iff_ne]
            exact fun h2 => hvn h2.symm
          rw [hb]
          exact hd

theorem volumeLoop_schedulerName (job : Job) :
    ∀ (vols : List VolumeSpec) (vm : List String) (spec : PodSpec),
      (volumeLoop job vols vm spec).SchedulerName = spec.SchedulerName := by
  intro vols
  induction vols with
  | nil => intro vm spec; rfl
  | cons u rest ih =>
    intro vm spec
    by_cases h : u.VolumeClaimName ∈ vm
    · rw [volumeLoop_cons_old job u rest vm spec h, ih]
    · obtain ⟨nv, _, _, hstep⟩ := volumeLoop_cons_new job u rest vm spec h
      rw [hstep, ih]

theorem labelPod_fields (job : Job) (t : PodTemplateSpec) (pod : Pod) :
    (labelPod job t pod).Name = pod.Name ∧ (labelPod job t pod).Namespace = pod.Namespace ∧
    (labelPod job t pod).OwnerReferences = pod.OwnerReferences ∧
    (labelPod job t pod).Spec.Volumes = pod.Spec.Volumes ∧
    (labelPod job t pod).Spec.Containers = pod.Spec.Containers := by
  unfold labelPod
  simp only []
  split_ifs <;> exact ⟨rfl, rfl, rfl, rfl, rfl⟩

theorem createJobPod_eq (job : Job) (template : PodTemplateSpec) (ix : Int) :
    createJobPod job template ix =
      labelPod job template
        { Name := helpersMakePodName job.Name template.Name ix
          Namespace := job.Namespace
          OwnerReferences := [NewControllerRef job]
          Labels := template.Labels
          Annotations := template.Annotations
          Spec := volumeLoop job job.Spec.Volumes []
            (if template.Spec.SchedulerName.length = 0 then
              { template.Spec with SchedulerName := job.Spec.SchedulerName }
            else template.Spec) } := by
  unfold createJobPod
  simp only []
  split_ifs <;> rfl

theorem createJobPod_volumes (job : Job) (template : PodTemplateSpec) (ix : Int) :
    (createJobPod job template ix).Spec.Volumes =
      (volumeLoop job job.Spec.Volumes []
        (if template.Spec.SchedulerName.length = 0 then
          { template.Spec with SchedulerName := job.Spec.SchedulerName }
        else template.Spec)).Volumes := by
  rw [createJobPod_eq]
  exact (labelPod_fields job template _).2.2.2.1

theorem createJobPod_injected (job : Job) (template : PodTemplateSpec) (ix : Int) :
    ∃ A : List Volume, injectedVolumes job template ix = A ∧
      (createJobPod job template ix).Spec.Volumes = template.Spec.Volumes ++ A ∧
      (A.map (fun v => v.Name)).Nodup ∧
      (∀ n, n ∈ A.map (fun v => v.Name) ↔ n ∈ claimNames job) ∧
      List.Pairwise (fun a b => List.indexOf a (claimNames job) < List.indexOf b (claimNames job))
        (A.map (fun v => v.Name)) ∧
      ∀ v ∈ A, ∃ d, firstDeclaration job v.Name = some d ∧
        ((markedEmptyDir job v.Name ∧ d.VolumeClaim = none ∧
            v = { Name := v.Name, EmptyDir := some {} }) ∨
          (¬ (markedEmptyDir job v.Name ∧ d.VolumeClaim = none) ∧
            v = { Name := v.Name,
                  PersistentVolumeClaim := some { ClaimName := v.Name } })) := by
  obtain ⟨A, hA, hnd, hmem, hpw, hshape⟩ := volumeLoop_volumes job job.Spec.Volumes []
    (if template.Spec.SchedulerName.length = 0 then
      { template.Spec with SchedulerName := job.Spec.SchedulerName }
    else template.Spec)
  have hvol : (createJobPod job template ix).Spec.Volumes = template.Spec.Volumes ++ A := by
    rw [createJobPod_volumes, hA]
    split_ifs <;> rfl
  refine ⟨A, ?_, hvol, hnd, ?_, hpw, hshape⟩
  · unfold injectedVolumes
    rw [hvol, List.drop_left]
  · intro n
    rw [hmem n]
    unfold claimNames
    simp

theorem volumeCount_append (n : String) (l1 l2 : List Volume) :
    volumeCount n (l1 ++ l2) = volumeCount n l1 + volumeCount n l2 := by
  unfold volumeCount
  rw [List.filter_append, List.length_append]

theorem volumeCount_nodup (n : String) :
    ∀ (A : List Volume), (A.map (fun v => v.Name)).Nodup →
      volumeCount n A = if n ∈ A.map (fun v => v.Name) then 1 else 0 := by
  intro A
  induction A with
  | nil => intro _; rfl
  | cons v rest ih =>
    intro hnd
    rw [List.map_cons, List.nodup_cons] at hnd
    have ih2 := ih hnd.2
    unfold volumeCount at ih2 ⊢
    by_cases hv : v.Name = n
    · have hb : (v.Name == n) = true := by rw [beq_iff_eq]; exact hv
      have hnot : n ∉ rest.map (fun v => v.Name) := hv ▸ hnd.1
      rw [List.filter_cons, if_pos hb, List.length_cons, ih2, if_neg hnot,
        if_pos (by rw [List.map_cons, hv]; exact List.mem_cons_self _ _)]
    · have hb : ¬ (v.Name == n) = true := by rw [beq_iff_eq]; exact hv
      rw [List.filter_cons, if_neg hb, ih2]
      have hiff : n ∈ (v :: rest).map (fun v => v.Name) ↔ n ∈ rest.map (fun v => v.Name) := by
        rw [List.map_cons, List.mem_cons]
        constructor
        · rintro (h | h)
          · exact absurd h.symm hv
          · exact h
        · exact fun h => Or.inr h
      by_cases hin : n ∈ rest.map (fun v => v.Name)
      · rw [if_pos hin, if_pos (hiff.mpr hin)]
      · rw [if_neg hin, if_neg (fun h => hin (hiff.mp h))]

theorem volumeLoop_congr (job job2 : Job)
    (h : job2.Status.ControlledResources = job.Status.ControlledResources) :
    ∀ (vols : List VolumeSpec) (vm : List String) (spec : PodSpec),
      volumeLoop job2 vols vm spec = volumeLoop job vols vm spec := by
  intro vols
  induction vols with
  | nil => intro vm spec; rfl
  | cons u rest ih =>
    intro vm spec
    simp only [volumeLoop, h, ih]

theorem volumeLoop_append_declared (job : Job) (v : VolumeSpec) :
    ∀ (vols : List VolumeSpec) (vm : List String) (spec : PodSpec),
      (v.VolumeClaimName ∈ vm ∨ v.VolumeClaimName ∈ vols.map (fun d => d.VolumeClaimName)) →
      volumeLoop job (vols ++ [v]) vm spec =
        { volumeLoop job vols vm spec with
          Containers := mountLoop { MountPath := v.MountPath, Name := v.VolumeClaimName }
            (volumeLoop job vols vm spec).Containers } := by
  intro vols
  induction vols with
  | nil =>
    intro vm spec h
    have hv : v.VolumeClaimName ∈ vm := by
      rcases h with h | h
      · exact h
      · exact absurd h (List.not_mem_nil _)
    rw [List.nil_append, volumeLoop_cons_old job v [] vm spec hv]
    rfl
  | cons u rest ih =>
    intro vm spec h
    rw [List.cons_append]
    by_cases hu : u.VolumeClaimName ∈ vm
    · rw [volumeLoop_cons_old job u (rest ++ [v]) vm spec hu,
        volumeLoop_cons_old job u rest vm spec hu]
      apply ih
      rcases h with h | h
      · exact Or.inl h
      · rw [List.map_cons, List.mem_cons] at h
        rcases h with h | h
        · exact Or.inl (h ▸ hu)
        · exact Or.inr h
    · rw [volumeLoop_cons_fresh job u (rest ++ [v]) vm spec hu,
        volumeLoop_cons_fresh job u rest vm spec hu]
      apply ih
      rcases h with h | h
      · exact Or.inl (List.mem_cons_of_mem _ h)
      · rw [List.map_cons, List.mem_cons] at h
        rcases h with h | h
        · exact Or.inl (h ▸ List.mem_cons_self _ _)
        · exact Or.inr h

theorem mountLoop_eq_map (vm : VolumeMount) :
    ∀ (cs : List Container),
      mountLoop vm cs = cs.map (fun c => { c with VolumeMounts := c.VolumeMounts ++ [vm] }) := by
  intro cs
  induction cs with
  | nil => rfl
  | cons c rest ih => simp only [mountLoop, List.map_cons, ih]

theorem labelPod_containers (job : Job) (t : PodTemplateSpec) (pod : Pod)
    (cs : List Container) :
    labelPod job t { pod with Spec := { pod.Spec with Containers := cs } } =
      { labelPod job t pod with
        Spec := { (labelPod job t pod).Spec with Containers := cs } } := by
  unfold labelPod
  simp only []
  split_ifs <;> rfl

theorem labelPod_congr (job job2 : Job) (t : PodTemplateSpec) (pod : Pod)
    (h1 : job2.Name = job.Name) (h2 : job2.Namespace = job.Namespace)
    (h3 : job2.Status = job.Status) (h4 : job2.Spec.SchedulerName = job.Spec.SchedulerName) :
    labelPod job2 t pod = labelPod job t pod := by
  unfold labelPod
  rw [h1, h2, h3, h4]

theorem createJobPod_redeclared (job job2 : Job) (template : PodTemplateSpec) (ix : Int)
    (v : VolumeSpec) (h1 : job2.Name = job.Name) (h2 : job2.Namespace = job.Namespace)
    (h3 : job2.Status = job.Status) (h4 : job2.Spec.SchedulerName = job.Spec.SchedulerName)
    (h5 : job2.UID = job.UID) (h6 : job2.Spec.Volumes = job.Spec.Volumes ++ [v])
    (h : v.VolumeClaimName ∈ claimNames job) :
    createJobPod job2 template ix =
      { createJobPod job template ix with
        Spec := { (createJobPod job template ix).Spec with
          Containers := mountLoop { MountPath := v.MountPath, Name := v.VolumeClaimName }
            (createJobPod job template ix).Spec.Containers } } := by
  have hc : (createJobPod job template ix).Spec.Containers =
      (volumeLoop job job.Spec.Volumes []
        (if template.Spec.SchedulerName.length = 0 then
          { template.Spec with SchedulerName := job.Spec.SchedulerName }
        else template.Spec)).Containers := by
    rw [createJobPod_eq]
    exact (labelPod_fields job template _).2.2.2.2
  have hr : NewControllerRef job2 = NewControllerRef job := by
    unfold NewControllerRef
    rw [h1, h5]
  rw [hc, createJobPod_eq, createJobPod_eq, labelPod_congr job job2 template _ h1 h2 h3 h4,
    h1, h2, h4, h6, hr, volumeLoop_congr job job2 (by rw [h3]),
    volumeLoop_append_declared job v job.Spec.Volumes [] _ (Or.inr h)]
  generalize volumeLoop job job.Spec.Volumes []
    (if template.Spec.SchedulerName.length = 0 then
      { template.Spec with SchedulerName := job.Spec.SchedulerName }
    else template.Spec) = VL
  exact labelPod_containers job template
    { Name := helpersMakePodName job.Name template.Name ix
      Namespace := job.Namespace
      OwnerReferences := [NewControllerRef job]
      Labels := template.Labels
      Annotations := template.Annotations
      Spec := VL }
    (mountLoop { MountPath := v.MountPath, Name := v.VolumeClaimName } VL.Containers)

/-! ## Pod synthesis: properties -/

/-- C11: the volumes that createJobPod appends after the template's own volumes have
pairwise distinct names, one volume for every claim name of job.Spec.Volumes and no
other, in the order in which the claim names are first declared. -/
theorem createJobPod_injected_distinct (job : Job) (template : PodTemplateSpec) (ix : Int) :
    (createJobPod job template ix).Spec.Volumes =
      template.Spec.Volumes ++ injectedVolumes job template ix ∧
    ((injectedVolumes job template ix).map (fun v => v.Name)).Nodup ∧
    (∀ n, n ∈ (injectedVolumes job template ix).map (fun v => v.Name) ↔ n ∈ claimNames job) ∧
    List.Pairwise
      (fun a b => List.indexOf a (claimNames job) < List.indexOf b (claimNames job))
      ((injectedVolumes job template ix).map (fun v => v.Name)) := by
  obtain ⟨A, hA, hvol, hnd, hmem, hpw, _⟩ := createJobPod_injected job template ix
  rw [hA]
  exact ⟨hvol, hnd, hmem, hpw⟩

/-- C11 at a job that declares "data", "scratch" and "data" again: two volumes are
appended, "data" then "scratch". -/
theorem createJobPod_injected_distinct_witness :
    claimNames volumesJob = ["data", "scratch", "data"] ∧
    (injectedVolumes volumesJob dataTemplate 0).map (fun v => v.Name) = ["data", "scratch"] ∧
    ((injectedVolumes volumesJob dataTemplate 0).map (fun v => v.Name)).Nodup :=
  ⟨by decide, by decide, (createJobPod_injected_distinct volumesJob dataTemplate 0).2.1⟩

/-- C18 as stated fails: a claim name that the status marks as empty-dir-backed is
injected as a PersistentVolumeClaim reference when its declaration carries a
VolumeClaim. -/
theorem createJobPod_marked_not_emptyDir :
    ¬ ∀ (job : Job) (template : PodTemplateSpec) (ix : Int),
      ∀ v ∈ injectedVolumes job template ix,
        (markedEmptyDir job v.Name → v.EmptyDir ≠ none ∧ v.PersistentVolumeClaim = none) ∧
        (¬ markedEmptyDir job v.Name →
          v.EmptyDir = none ∧ v.PersistentVolumeClaim = some { ClaimName := v.Name }) := by
  intro h
  exact absurd (h markedWithClaimJob plainTemplate 0) (by decide)

/-- C18, amended: every volume that createJobPod injects carries the claim name of a job
volume; it is an EmptyDir volume if the status marks that claim name as
empty-dir-backed and the first declaration of the claim name has a nil VolumeClaim, and
otherwise a PersistentVolumeClaim reference whose ClaimName is the claim name. -/
theorem createJobPod_injected_kind (job : Job) (template : PodTemplateSpec) (ix : Int)
    (v : Volume) (hv : v ∈ injectedVolumes job template ix) :
    ∃ d, firstDeclaration job v.Name = some d ∧
      (markedEmptyDir job v.Name ∧ d.VolumeClaim = none →
        v = { Name := v.Name, EmptyDir := some {} }) ∧
      (¬ (markedEmptyDir job v.Name ∧ d.VolumeClaim = none) →
        v = { Name := v.Name, PersistentVolumeClaim := some { ClaimName := v.Name } }) := by
  obtain ⟨A, hA, _, _, _, _, hshape⟩ := createJobPod_injected job template ix
  rw [hA] at hv
  obtain ⟨d, hd, hs⟩ := hshape v hv
  refine ⟨d, hd, ?_, ?_⟩
  · intro hm
    rcases hs with ⟨_, _, he⟩ | ⟨hn, _⟩
    · exact he
    · exact absurd hm hn
  · intro hn
    rcases hs with ⟨hm, hc, _⟩ | ⟨_, he⟩
    · exact absurd ⟨hm, hc⟩ hn
    · exact he

/-- C18, amended, at a job whose claim "scratch" is marked as empty-dir-backed and
declared without a VolumeClaim: the injected volume is an EmptyDir volume. -/
theorem createJobPod_injected_kind_witness :
    ({ Name := "scratch", EmptyDir := some {} } : Volume) ∈
      injectedVolumes volumesJob plainTemplate 0 ∧
    markedEmptyDir volumesJob "scratch" ∧
    ∃ d, firstDeclaration volumesJob "scratch" = some d ∧
      (markedEmptyDir volumesJob "scratch" ∧ d.VolumeClaim = none →
        ({ Name := "scratch", EmptyDir := some {} } : Volume) =
          { Name := "scratch", EmptyDir := some {} }) ∧
      (¬ (markedEmptyDir volumesJob "scratch" ∧ d.VolumeClaim = none) →
        ({ Name := "scratch", EmptyDir := some {} } : Volume) =
          { Name := "scratch", PersistentVolumeClaim := some { ClaimName := "scratch" } }) :=
  ⟨by decide, by decide,
    createJobPod_injected_kind volumesJob plainTemplate 0
      { Name := "scratch", EmptyDir := some {} } (by decide)⟩

/-- C19 as stated fails: declaring the same volume (same claim name and mount path) a
second time changes the built pod, whose containers get a second mount for the claim. -/
theorem createJobPod_redeclared_changes_pod :
    ¬ ∀ (job : Job) (template : PodTemplateSpec) (ix : Int) (v : VolumeSpec),
      v ∈ job.Spec.Volumes →
      createJobPod { job with Spec := { job.Spec with Volumes := job.Spec.Volumes ++ [v] } }
        template ix = createJobPod job template ix := by
  intro h
  exact absurd (h oneVolumeJob plainTemplate 0 dataVolume (by decide)) (by decide)

/-- C19, amended: declaring a further volume whose claim name the job already declares
leaves the volumes of the built pod, and everything in the pod but the mounts,
unchanged; every container gets one more mount, for that claim name at the declared
mount path, so a claim declared twice is mounted twice. -/
theorem createJobPod_redeclared_adds_mount (job : Job) (template : PodTemplateSpec) (ix : Int)
    (v : VolumeSpec) (h : v.VolumeClaimName ∈ claimNames job) :
    createJobPod { job with Spec := { job.Spec with Volumes := job.Spec.Volumes ++ [v] } }
        template ix =
      { createJobPod job template ix with
        Spec := { (createJobPod job template ix).Spec with
          Containers := (createJobPod job template ix).Spec.Containers.map
            (fun c => { c with
              VolumeMounts := c.VolumeMounts ++
                [{ MountPath := v.MountPath, Name := v.VolumeClaimName }] }) } } ∧
    (createJobPod { job with Spec := { job.Spec with Volumes := job.Spec.Volumes ++ [v] } }
        template ix).Spec.Volumes = (createJobPod job template ix).Spec.Volumes := by
  have he := createJobPod_redeclared job
    { job with Spec := { job.Spec with Volumes := job.Spec.Volumes ++ [v] } } template ix v
    rfl rfl rfl rfl rfl rfl h
  rw [mountLoop_eq_map] at he
  refine ⟨he, ?_⟩
  rw [he]

/-- C19, amended, at a job that declares "data" once and the same job with "data"
declared twice: the container of the second pod has two mounts for "data". -/
theorem createJobPod_redeclared_adds_mount_witness :
    dataVolume.VolumeClaimName ∈ claimNames oneVolumeJob ∧
    (createJobPod twiceVolumeJob plainTemplate 0).Spec.Volumes =
      (createJobPod oneVolumeJob plainTemplate 0).Spec.Volumes ∧
    (createJobPod twiceVolumeJob plainTemplate 0).Spec.Containers =
      [{ Name := "main"
         VolumeMounts := [{ MountPath := "/data", Name := "data" },
                          { MountPath := "/data", Name := "data" }] }] :=
  ⟨by decide,
    (createJobPod_redeclared_adds_mount oneVolumeJob plainTemplate 0 dataVolume (by decide)).2,
    by decide⟩

/-- C20 as stated fails: when the template already has a volume named like a claim of
the job, createJobPod still appends a volume of that name, and the pod has two. -/
theorem createJobPod_attached_again :
    ¬ ∀ (job : Job) (template : PodTemplateSpec) (ix : Int) (n : String),
      (∃ v ∈ template.Spec.Volumes, v.Name = n) → n ∈ claimNames job →
      volumeCount n (createJobPod job template ix).Spec.Volumes = 1 := by
  intro h
  exact absurd (h oneVolumeJob dataTemplate 0 "data" (by decide) (by decide)) (by decide)

/-- C20, amended: createJobPod does not look at the template's volumes. The built pod
holds the template's volumes followed by one volume for every claim name of the job, so
the number of its volumes of a given name is the number in the template, plus one when
the name is a claim name of the job. -/
theorem createJobPod_volume_count (job : Job) (template : PodTemplateSpec) (ix : Int)
    (n : String) :
    volumeCount n (createJobPod job template ix).Spec.Volumes =
      volumeCount n template.Spec.Volumes + (if n ∈ claimNames job then 1 else 0) := by
  obtain ⟨A, _, hvol, hnd, hmem, _, _⟩ := createJobPod_injected job template ix
  rw [hvol, volumeCount_append, volumeCount_nodup n A hnd]
  by_cases hn : n ∈ claimNames job
  · rw [if_pos hn, if_pos ((hmem n).mpr hn)]
  · rw [if_neg hn, if_neg (fun h => hn ((hmem n).mp h))]

/-- C20, amended, at a template that has a volume "data" and a job that declares the
claim "data": the pod has two volumes named "data". -/
theorem createJobPod_volume_count_witness :
    (∃ v ∈ dataTemplate.Spec.Volumes, v.Name = "data") ∧ "data" ∈ claimNames oneVolumeJob ∧
    volumeCount "data" (createJobPod oneVolumeJob dataTemplate 0).Spec.Volumes = 1 + 1 :=
  ⟨by decide, by decide,
    (createJobPod_volume_count oneVolumeJob dataTemplate 0 "data").trans (by decide)⟩

/-! ## Resource aggregation: lemmas and properties -/

theorem mapGet_cons {α : Type} (k : String) (v : α) (rest : List (String × α)) (n : String) :
    mapGet ((k, v) :: rest) n = if n = k then some v else mapGet rest n := by
  unfold mapGet
  rw [List.lookup_cons]
  by_cases h : n = k
  · have hb : (n == k) = true := by rw [beq_iff_eq]; exact h
    rw [hb, if_pos h]
  · have hb : (n == k) = false := by rw [beq_eq_false_iff_ne]; exact h
    rw [hb, if_neg h]

theorem mapGet_mapSet {α : Type} (key : String) (value : α) (n : String) :
    ∀ (m : List (String × α)),
      mapGet (mapSet m key value) n = if n = key then some value else mapGet m n := by
  intro m
  induction m with
  | nil =>
    show mapGet [(key, value)] n = _
    rw [mapGet_cons]
  | cons e rest ih =>
    obtain ⟨k, v⟩ := e
    by_cases hk : k = key
    · subst hk
      simp only [mapSet, if_true]
      rw [mapGet_cons, mapGet_cons]
      by_cases h : n = k
      · rw [if_pos h, if_pos h]
      · rw [if_neg h, if_neg h, if_neg h]
    · simp only [mapSet, hk, if_false]
      rw [mapGet_cons, mapGet_cons, ih]
      by_cases h : n = k
      · have h2 : ¬ n = key := fun h3 => hk (h.symm.trans h3)
        rw [if_pos h, if_neg h2, if_pos h]
      · rw [if_neg h, if_neg h]

theorem mapGet_none_of_not_mem (n : String) :
    ∀ (l : ResourceList), n ∉ resourceNames l → mapGet l n = none := by
  intro l
  induction l with
  | nil => intro _; rfl
  | cons e rest ih =>
    obtain ⟨k, v⟩ := e
    intro h
    unfold resourceNames at h ih
    rw [List.map_cons, List.mem_cons, not_or] at h
    rw [mapGet_cons, if_neg h.1]
    exact ih h.2

theorem requestLoop_get (n : String) :
    ∀ (req : ResourceList) (list : ResourceList), (resourceNames req).Nodup →
      mapGet (requestLoop req list) n =
        match mapGet req n with
        | some r =>
          (match mapGet list n with
           | some a => some (a + r)
           | none => some r)
        | none => mapGet list n := by
  intro req
  induction req with
  | nil => intro list _; rfl
  | cons e rest ih =>
    obtain ⟨k, q⟩ := e
    intro list hnd
    unfold resourceNames at hnd
    rw [List.map_cons, List.nodup_cons] at hnd
    rw [mapGet_cons]
    by_cases h : n = k
    · subst h
      have hrest : mapGet rest n = none := mapGet_none_of_not_mem n rest hnd.1
      rw [if_pos rfl]
      cases hl : mapGet list n with
      | none =>
        simp only [requestLoop, hl]
        rw [ih _ hnd.2, hrest]
        simp only []
        rw [mapGet_mapSet, if_pos rfl]
      | some a =>
        simp only [requestLoop, hl]
        rw [ih _ hnd.2, hrest]
        simp only []
        rw [mapGet_mapSet, if_pos rfl]
    · rw [if_neg h]
      cases hl : mapGet list k with
      | none =>
        simp only [requestLoop, hl]
        rw [ih _ hnd.2, mapGet_mapSet, if_neg h]
      | some a =>
        simp only [requestLoop, hl]
        rw [ih _ hnd.2, mapGet_mapSet, if_neg h]

theorem limitLoop_get (n : String) :
    ∀ (limit : ResourceList) (list : ResourceList),
      mapGet (limitLoop limit list) n =
        match mapGet list n with
        | some a => some a
        | none => mapGet limit n := by
  intro limit
  induction limit with
  | nil =>
    intro list
    show mapGet list n = _
    cases mapGet list n <;> rfl
  | cons e rest ih =>
    obtain ⟨k, q⟩ := e
    intro list
    rw [mapGet_cons]
    cases hk : mapGet list k with
    | none =>
      have hh : mapHas list k = false := by unfold mapHas; rw [hk]; rfl
      simp only [limitLoop, hh, if_true]
      rw [ih, mapGet_mapSet]
      by_cases h : n = k
      · subst h
        rw [if_pos rfl, hk]
        simp only [if_true]
      · rw [if_neg h, if_neg h]
    | some a =>
      have hh : mapHas list k = true := by unfold mapHas; rw [hk]; rfl
      have hstep : limitLoop ((k, q) :: rest) list = limitLoop rest list := by
        simp [limitLoop, hh]
      rw [hstep, ih]
      by_cases h : n = k
      · subst h
        rw [hk]
      · rw [if_neg h]

/-- C12: after addResourceList each resource name maps to the sum of the old accumulator
entry and the request entry if it is in both, to the request entry if it is only in the
requests, to the old accumulator entry if it is in the accumulator and not in the
requests, to the limit entry if it is in neither and in the limits, and is absent
otherwise; the requests are a Go map, so their names are pairwise distinct. -/
theorem addResourceList_get (list req limit : ResourceList) (n : String)
    (hreq : (resourceNames req).Nodup) :
    mapGet (addResourceList list req limit) n =
      mergedQuantity (mapGet list n) (mapGet req n) (mapGet limit n) := by
  unfold addResourceList
  rw [limitLoop_get, requestLoop_get n req list hreq]
  cases mapGet list n <;> cases mapGet req n <;> cases mapGet limit n <;> rfl

/-- C12 at the empty accumulator, requests cpu 1 and limits cpu 2, mem 4: the result is
cpu 1, mem 4. -/
theorem addResourceList_get_witness :
    (resourceNames [("cpu", 1)]).Nodup ∧
    addResourceList [] [("cpu", 1)] [("cpu", 2), ("mem", 4)] = [("cpu", 1), ("mem", 4)] ∧
    mapGet (addResourceList [] [("cpu", 1)] [("cpu", 2), ("mem", 4)]) "mem" =
      mergedQuantity (mapGet [] "mem") (mapGet [("cpu", 1)] "mem")
        (mapGet [("cpu", 2), ("mem", 4)] "mem") :=
  ⟨by decide, by decide,
    addResourceList_get [] [("cpu", 1)] [("cpu", 2), ("mem", 4)] "mem" (by decide)⟩

/-! ## Pod names: lemmas and properties -/

theorem digitChar_ne_dash : ∀ d, d < 10 → Nat.digitChar d ≠ '-' := by decide

theorem digitChar_value : ∀ d, d < 10 → (Nat.digitChar d).toNat - 48 = d := by decide

theorem foldl_decimal (l : List Char) :
    ∀ (a : Nat), l.foldl (fun acc c => acc * 10 + (c.toNat - 48)) a =
      a * 10 ^ l.length + l.foldl (fun acc c => acc * 10 + (c.toNat - 48)) 0 := by
  induction l with
  | nil => intro a; simp
  | cons c rest ih =>
    intro a
    rw [List.foldl_cons, List.foldl_cons, ih (a * 10 + (c.toNat - 48)),
      ih (0 * 10 + (c.toNat - 48)), List.length_cons, pow_succ]
    ring

theorem decimalValue_cons (c : Char) (ds : List Char) :
    decimalValue (c :: ds) = (c.toNat - 48) * 10 ^ ds.length + decimalValue ds := by
  unfold decimalValue
  rw [List.foldl_cons, foldl_decimal ds (0 * 10 + (c.toNat - 48))]
  ring

theorem decimalValue_toDigitsCore :
    ∀ (fuel n : Nat) (ds : List Char), n < fuel →
      decimalValue (Nat.toDigitsCore 10 fuel n ds) = n * 10 ^ ds.length + decimalValue ds := by
  intro fuel
  induction fuel with
  | zero => intro n ds h; exact absurd h (Nat.not_lt_zero n)
  | succ f ih =>
    intro n ds h
    simp only [Nat.toDigitsCore]
    by_cases h0 : n / 10 = 0
    · have hn : n < 10 := by omega
      have hm : n % 10 = n := by omega
      rw [if_pos h0, decimalValue_cons, hm, digitChar_value n hn]
    · have hq : n / 10 < f := by omega
      have hr : n % 10 < 10 := by omega
      rw [if_neg h0, ih (n / 10) _ hq, decimalValue_cons, digitChar_value _ hr,
        List.length_cons, pow_succ]
      have hn : n = 10 * (n / 10) + n % 10 := (Nat.div_add_mod n 10).symm
      generalize n / 10 = q at hn ⊢
      generalize n % 10 = r at hn ⊢
      subst hn
      ring

theorem toDigits_injective (n m : Nat) (h : Nat.toDigits 10 n = Nat.toDigits 10 m) : n = m := by
  have hn := decimalValue_toDigitsCore (n + 1) n [] (Nat.lt_succ_self n)
  have hm := decimalValue_toDigitsCore (m + 1) m [] (Nat.lt_succ_self m)
  have h2 : decimalValue (Nat.toDigits 10 n) = decimalValue (Nat.toDigits 10 m) := by rw [h]
  unfold Nat.toDigits at h2
  rw [hn, hm] at h2
  simpa [decimalValue] using h2

theorem toDigitsCore_no_dash :
    ∀ (fuel n : Nat) (ds : List Char), (∀ c ∈ ds, c ≠ '-') →
      ∀ c ∈ Nat.toDigitsCore 10 fuel n ds, c ≠ '-' := by
  intro fuel
  induction fuel with
  | zero => intro n ds h c hc; exact h c hc
  | succ f ih =>
    intro n ds h c hc
    simp only [Nat.toDigitsCore] at hc
    have hr : n % 10 < 10 := by omega
    have hds : ∀ c ∈ Nat.digitChar (n % 10) :: ds, c ≠ '-' := by
      intro c2 hc2
      rcases List.mem_cons.mp hc2 with h2 | h2
      · rw [h2]
        exact digitChar_ne_dash _ hr
      · exact h c2 h2
    by_cases h0 : n / 10 = 0
    · rw [if_pos h0] at hc
      exact hds c hc
    · rw [if_neg h0] at hc
      exact ih (n / 10) _ hds c hc

theorem split_at_last_dash (a b x y : List Char) (hx : '-' ∉ x) (hy : '-' ∉ y)
    (h : a ++ '-' :: x = b ++ '-' :: y) : a = b ∧ x = y := by
  rcases List.append_eq_append_iff.mp h with ⟨t, hb, ht⟩ | ⟨t, ha, ht⟩
  · cases t with
    | nil =>
      rw [List.nil_append] at ht
      rw [List.append_nil] at hb
      exact ⟨hb.symm, (List.cons.inj ht).2⟩
    | cons c t2 =>
      rw [List.cons_append] at ht
      have h2 := (List.cons.inj ht).2
      exact absurd (by rw [h2]; simp) hx
  · cases t with
    | nil =>
      rw [List.nil_append] at ht
      rw [List.append_nil] at ha
      exact ⟨ha, ((List.cons.inj ht).2).symm⟩
    | cons c t2 =>
      rw [List.cons_append] at ht
      have h2 := (List.cons.inj ht).2
      exact absurd (by rw [h2]; simp) hy

theorem labelPod_name (job : Job) (t : PodTemplateSpec) (pod : Pod) :
    (labelPod job t pod).Name = pod.Name :=
  (labelPod_fields job t pod).1

/-- C14: createJobPod names its pod MakePodName(job.Name, template.Name, ix), a function
of these three values only; and for one job name and indices that are not negative, two
pod names "<job>-<task>-<index>" are equal only if the task names are equal and the
indices are equal. -/
theorem MakePodName_injective (jobName t1 t2 : String) (i1 i2 : Int) (h1 : 0 ≤ i1)
    (h2 : 0 ≤ i2) :
    (∀ (job : Job) (template : PodTemplateSpec) (ix : Int),
      (createJobPod job template ix).Name = MakePodName job.Name template.Name ix) ∧
    (MakePodName jobName t1 i1 = MakePodName jobName t2 i2 → t1 = t2 ∧ i1 = i2) := by
  constructor
  · intro job template ix
    rw [createJobPod_eq, labelPod_name]
    rfl
  · intro h
    obtain ⟨n1, rfl⟩ := Int.eq_ofNat_of_zero_le h1
    obtain ⟨n2, rfl⟩ := Int.eq_ofNat_of_zero_le h2
    have hd : (jobName.data ++ ['-']) ++ (t1.data ++ '-' :: Nat.toDigits 10 n1) =
        (jobName.data ++ ['-']) ++ (t2.data ++ '-' :: Nat.toDigits 10 n2) := by
      have h3 := congrArg String.data h
      simpa [MakePodName, sprintfPodNameFmt, formatInt, Nat.repr, List.asString] using h3
    have hsplit := split_at_last_dash t1.data t2.data _ _
      (fun hc => toDigitsCore_no_dash _ n1 [] (fun c hc2 => absurd hc2 (List.not_mem_nil c))
        '-' hc rfl)
      (fun hc => toDigitsCore_no_dash _ n2 [] (fun c hc2 => absurd hc2 (List.not_mem_nil c))
        '-' hc rfl)
      (List.append_cancel_left hd)
    exact ⟨String.ext hsplit.1, by rw [toDigits_injective n1 n2 hsplit.2]⟩

/-- C14 at the job "job": the first pod of task "worker" is named "job-worker-0", and
the names of the pods 0 and 1 of that task differ. -/
theorem MakePodName_injective_witness :
    (0 : Int) ≤ 0 ∧ (0 : Int) ≤ 1 ∧ MakePodName "job" "worker" 0 = "job-worker-0" ∧
    (createJobPod oneVolumeJob plainTemplate 0).Name = "job-worker-0" ∧
    MakePodName "job" "worker" 0 ≠ MakePodName "job" "worker" 1 :=
  ⟨by decide, by decide, by decide,
    ((MakePodName_injective "job" "worker" "worker" 0 1 (by decide) (by decide)).1
      oneVolumeJob plainTemplate 0).trans (by decide),
    fun h => absurd
      ((MakePodName_injective "job" "worker" "worker" 0 1 (by decide) (by decide)).2 h).2
      (by decide)⟩

/-! ## Task priorities: lemmas and properties -/

theorem adjacent_entries (a b : TaskPriority) (post : TasksPriority) :
    ∀ (pre : TasksPriority),
      (pre ++ a :: b :: post)[pre.length]? = some a ∧
      (pre ++ a :: b :: post)[pre.length + 1]? = some b ∧
      ((pre ++ a :: b :: post).set (pre.length + 1) a).set pre.length b =
        pre ++ b :: a :: post := by
  intro pre
  induction pre with
  | nil => exact ⟨by simp, by simp, by simp⟩
  | cons c rest ih =>
    obtain ⟨h1, h2, h3⟩ := ih
    refine ⟨?_, ?_, ?_⟩
    · simpa using h1
    · simpa using h2
    · simp

theorem sinkLoop_insert :
    ∀ (j : Nat) (pre : TasksPriority) (x : TaskPriority) (post : TasksPriority),
      pre.length = j →
      sinkLoop j (pre ++ x :: post) =
        (List.orderedInsert priorityLE x pre.reverse).reverse ++ post := by
  intro j
  induction j with
  | zero =>
    intro pre x post h
    have hp : pre = [] := List.length_eq_zero.mp h
    subst hp
    rfl
  | succ j ih =>
    intro pre x post h
    have hne : pre ≠ [] := by
      intro h2
      rw [h2] at h
      exact Nat.succ_ne_zero j h.symm
    obtain ⟨pre2, y, hpre⟩ : ∃ pre2 y, pre = pre2 ++ [y] :=
      ⟨pre.dropLast, pre.getLast hne, (List.dropLast_append_getLast hne).symm⟩
    subst hpre
    have hlen : pre2.length = j := by
      rw [List.length_append, List.length_singleton] at h
      exact Nat.succ.inj h
    obtain ⟨e1, e2, e3⟩ := adjacent_entries y x post pre2
    rw [hlen] at e1 e2 e3
    have hp : pre2 ++ [y] ++ x :: post = pre2 ++ y :: x :: post := by simp
    rw [hp, List.reverse_append, List.reverse_singleton, List.singleton_append]
    by_cases hlt : x.priority > y.priority
    · have hless : TasksPriority.Less (pre2 ++ y :: x :: post) (j + 1) j = true := by
        unfold TasksPriority.Less
        rw [e1, e2]
        exact decide_eq_true hlt
      have hswap : TasksPriority.Swap (pre2 ++ y :: x :: post) (j + 1) j =
          pre2 ++ x :: y :: post := by
        unfold TasksPriority.Swap
        rw [e1, e2]
        exact e3
      have hnle : ¬ priorityLE x y := by
        unfold priorityLE
        exact not_le.mpr hlt
      simp only [sinkLoop, hless, if_true]
      rw [hswap, ih pre2 x (y :: post) hlen, List.orderedInsert, if_neg hnle,
        List.reverse_cons, List.append_assoc, List.singleton_append]
    · have hless : ¬ TasksPriority.Less (pre2 ++ y :: x :: post) (j + 1) j = true := by
        unfold TasksPriority.Less
        rw [e1, e2]
        exact fun h2 => hlt (of_decide_eq_true h2)
      have hle : priorityLE x y := by
        unfold priorityLE
        exact not_lt.mp hlt
      simp only [sinkLoop, hless, if_false]
      rw [List.orderedInsert, if_pos hle]
      simp

theorem insertionLoop_fold :
    ∀ (rest : TasksPriority) (R : TasksPriority),
      insertionLoop rest.length R.length (R.reverse ++ rest) =
        (rest.foldl (fun acc x => List.orderedInsert priorityLE x acc) R).reverse := by
  intro rest
  induction rest with
  | nil =>
    intro R
    simp [insertionLoop]
  | cons x rest2 ih =>
    intro R
    have hs := sinkLoop_insert R.length R.reverse x rest2 (List.length_reverse R)
    rw [List.reverse_reverse] at hs
    have hl := List.orderedInsert_length priorityLE R x
    simp only [List.length_cons, insertionLoop, List.foldl_cons]
    rw [hs, ← hl]
    exact ih (List.orderedInsert priorityLE x R)

theorem fold_insert_eq_sort :
    ∀ (l : TasksPriority),
      l.foldl (fun acc x => List.orderedInsert priorityLE x acc) [] =
        List.insertionSort priorityLE l.reverse := by
  intro l
  induction l using List.reverseRecOn with
  | nil => rfl
  | append_singleton l2 x ih =>
    rw [List.foldl_append, List.foldl_cons, List.foldl_nil, ih, List.reverse_append,
      List.reverse_singleton, List.singleton_append, List.insertionSort]

theorem stableSort_eq (p : TasksPriority) :
    stableSort p = (List.insertionSort priorityLE p.reverse).reverse := by
  rw [← fold_insert_eq_sort]
  cases p with
  | nil => rfl
  | cons x rest =>
    have h := insertionLoop_fold rest [x]
    unfold stableSort TasksPriority.Len
    simpa using h

theorem withPriority_sort (v : Int) (l : TasksPriority) :
    withPriority v (List.insertionSort priorityLE l) = withPriority v l := by
  have hsub : List.Sublist (withPriority v l) (List.insertionSort priorityLE l) := by
    apply List.sublist_insertionSort
    · unfold withPriority
      rw [List.pairwise_iff_forall_sublist]
      intro a b hab
      have ha : a ∈ l.filter (fun t => t.priority == v) := hab.subset (by simp)
      have hb : b ∈ l.filter (fun t => t.priority == v) := hab.subset (by simp)
      have ha2 : a.priority = v := by simpa using (List.mem_filter.mp ha).2
      have hb2 : b.priority = v := by simpa using (List.mem_filter.mp hb).2
      unfold priorityLE
      rw [ha2, hb2]
    · exact List.filter_sublist l
  have hsub2 : List.Sublist (withPriority v l)
      (withPriority v (List.insertionSort priorityLE l)) := by
    have h2 := hsub.filter (fun t => t.priority == v)
    unfold withPriority at h2 ⊢
    rw [List.filter_filter] at h2
    simpa using h2
  have hlen : (withPriority v l).length =
      (withPriority v (List.insertionSort priorityLE l)).length := by
    unfold withPriority
    exact ((List.perm_insertionSort priorityLE l).filter _).length_eq.symm
  exact (hsub2.eq_of_length hlen).symm

/-- C13: Less(i, j) holds iff the priority at i is greater than the priority at j, and
the stable sort driven by TasksPriority.Less returns a permutation of its input in
non-increasing priority order (no later entry is Less than an earlier one), in which the
tasks of every priority value keep their relative input order. -/
theorem stableSort_descending_stable (p : TasksPriority) :
    (∀ (i j : Nat) (hi : i < p.length) (hj : j < p.length),
      TasksPriority.Less p i j = true ↔ p[i].priority > p[j].priority) ∧
    (stableSort p).Perm p ∧
    List.Pairwise (fun a b => a.priority ≥ b.priority) (stableSort p) ∧
    (∀ v : Int, withPriority v (stableSort p) = withPriority v p) ∧
    (∀ (i j : Nat), i < j → j < (stableSort p).length →
      TasksPriority.Less (stableSort p) j i = false) := by
  have hsorted : List.Pairwise (fun a b => a.priority ≥ b.priority) (stableSort p) := by
    rw [stableSort_eq, List.pairwise_reverse]
    exact List.sorted_insertionSort priorityLE p.reverse
  refine ⟨?_, ?_, hsorted, ?_, ?_⟩
  · intro i j hi hj
    unfold TasksPriority.Less
    rw [List.getElem?_eq_getElem hi, List.getElem?_eq_getElem hj]
    exact decide_eq_true_iff
  · rw [stableSort_eq]
    exact (List.reverse_perm _).trans
      ((List.perm_insertionSort priorityLE p.reverse).trans (List.reverse_perm p))
  · intro v
    rw [stableSort_eq]
    have h := withPriority_sort v p.reverse
    unfold withPriority at h ⊢
    rw [List.filter_reverse, h, List.filter_reverse, List.reverse_reverse]
  · intro i j hij hj
    have hi : i < (stableSort p).length := Nat.lt_trans hij hj
    unfold TasksPriority.Less
    rw [List.getElem?_eq_getElem hj, List.getElem?_eq_getElem hi]
    have hrel := List.pairwise_iff_getElem.mp hsorted i j hi hj hij
    exact decide_eq_false (not_lt.mpr hrel)

/-- C13 at four tasks "a", "b", "c", "d" with the priorities 1, 5, 5, 2: the sort yields
"b", "c", "d", "a", the two tasks of priority 5 in their input order. -/
theorem stableSort_descending_stable_witness :
    (stableSort fourTasks).map (fun t => (t.priority, t.TaskSpec.Name)) =
      [(5, "b"), (5, "c"), (2, "d"), (1, "a")] ∧
    withPriority 5 (stableSort fourTasks) = withPriority 5 fourTasks :=
  ⟨by decide, (stableSort_descending_stable fourTasks).2.2.2.1 5⟩

/-! ## Restart and terminal markers -/

theorem reachable_restartExcludes (s : JobStatus) (h : Reachable s) : RestartExcludes s := by
  induction h with
  | empty =>
    intro h2
    obtain ⟨r, hr, _⟩ := h2
    exact absurd hr (List.not_mem_nil r)
  | setCondition s c now _ ih => exact SetCondition_restartExcludes s c now ih
  | updateJobPhase s p m clk _ ih => exact UpdateJobPhase_restartExcludes s p m clk ih

/-- C21: if a status holds no active Restarting entry together with an entry of Type
Scheduled, Succeeded or Stopped, neither does the status after SetCondition, for every
condition; hence no status reached from the empty status by SetCondition and
UpdateJobPhase calls holds an active Restarting entry alongside a Scheduled, Succeeded
or Stopped entry. -/
theorem SetCondition_keeps_restart_exclusive (s : JobStatus) (c : JobCondition)
    (now : Nat → Time) :
    (RestartExcludes s → RestartExcludes (SetCondition s c now)) ∧
    (Reachable s → RestartExcludes s) ∧
    (Reachable s → ActiveRestarting s →
      ∀ x ∈ s.Conditions,
        x.Type_ ≠ JobScheduled ∧ x.Type_ ≠ JobSucceed ∧ x.Type_ ≠ JobStopped) :=
  ⟨SetCondition_restartExcludes s c now, reachable_restartExcludes s,
    fun h ha => reachable_restartExcludes s h ha⟩

/-- C21 at the status reached by the phases Pending and Completed, which holds a
Succeeded entry: after an active Restarting condition is set, the status holds an active
Restarting entry and none of type Scheduled, Succeeded or Stopped. -/
theorem SetCondition_keeps_restart_exclusive_witness :
    Reachable completedStatus ∧ RestartExcludes completedStatus ∧
    ¬ NoTerminalMarker completedStatus ∧
    ActiveRestarting (SetCondition completedStatus restartCondition (fun _ => 8)) ∧
    RestartExcludes (SetCondition completedStatus restartCondition (fun _ => 8)) :=
  ⟨Reachable.updateJobPhase _ _ _ _ (Reachable.updateJobPhase _ _ _ _ Reachable.empty),
    (SetCondition_keeps_restart_exclusive completedStatus restartCondition (fun _ => 8)).2.1
      (Reachable.updateJobPhase _ _ _ _ (Reachable.updateJobPhase _ _ _ _ Reachable.empty)),
    by decide, by decide,
    (SetCondition_keeps_restart_exclusive completedStatus restartCondition (fun _ => 8)).1
      (by decide)⟩

/-! ## Resource aggregation across containers -/

theorem addResourceList_lookup (list req limit : ResourceList) (n : String)
    (hreq : (resourceNames req).Nodup) :
    mapGet (addResourceList list req limit) n =
      mergedQuantity (mapGet list n) (mapGet req n) (mapGet limit n) := by
  unfold addResourceList
  rw [limitLoop_get, requestLoop_get n req list hreq]
  cases mapGet list n <;> cases mapGet req n <;> cases mapGet limit n <;> rfl

theorem addResourceList_congr (a1 a2 req limit : ResourceList)
    (hreq : (resourceNames req).Nodup) (h : ∀ n, mapGet a1 n = mapGet a2 n) (n : String) :
    mapGet (addResourceList a1 req limit) n = mapGet (addResourceList a2 req limit) n := by
  rw [addResourceList_lookup a1 req limit n hreq, addResourceList_lookup a2 req limit n hreq,
    h n]

theorem mergeAll_congr :
    ∀ (l : List (ResourceList × ResourceList)) (a1 a2 : ResourceList),
      (∀ c ∈ l, (resourceNames c.1).Nodup) → (∀ n, mapGet a1 n = mapGet a2 n) →
      ∀ n, mapGet (mergeAll a1 l) n = mapGet (mergeAll a2 l) n := by
  intro l
  induction l with
  | nil => intro a1 a2 _ h n; exact h n
  | cons c rest ih =>
    intro a1 a2 hnd h n
    show mapGet (mergeAll (addResourceList a1 c.1 c.2) rest) n =
      mapGet (mergeAll (addResourceList a2 c.1 c.2) rest) n
    exact ih _ _ (fun d hd => hnd d (List.mem_cons_of_mem _ hd))
      (addResourceList_congr a1 a2 c.1 c.2 (hnd c (List.mem_cons_self _ _)) h) n

theorem addResourceList_swap (acc ra rb : ResourceList) (ha : (resourceNames ra).Nodup)
    (hb : (resourceNames rb).Nodup) (n : String) :
    mapGet (addResourceList (addResourceList acc ra []) rb []) n =
      mapGet (addResourceList (addResourceList acc rb []) ra []) n := by
  rw [addResourceList_lookup _ rb [] n hb, addResourceList_lookup acc ra [] n ha,
    addResourceList_lookup _ ra [] n ha, addResourceList_lookup acc rb [] n hb]
  have hnil : mapGet ([] : ResourceList) n = none := rfl
  rw [hnil]
  cases mapGet acc n with
  | none =>
    cases mapGet ra n with
    | none => cases mapGet rb n <;> rfl
    | some x =>
      cases mapGet rb n with
      | none => rfl
      | some y => exact congrArg some (Int.add_comm x y)
  | some a =>
    cases mapGet ra n with
    | none => cases mapGet rb n <;> rfl
    | some x =>
      cases mapGet rb n with
      | none => rfl
      | some y => exact congrArg some (Int.add_right_comm a x y)

theorem mergeAll_perm (l1 l2 : List (ResourceList × ResourceList)) (hp : l1.Perm l2) :
    (∀ c ∈ l1, (resourceNames c.1).Nodup ∧ c.2 = []) →
      ∀ (acc : ResourceList) (n : String),
        mapGet (mergeAll acc l1) n = mapGet (mergeAll acc l2) n := by
  induction hp with
  | nil => intro _ acc n; rfl
  | cons c _ ih =>
    intro h acc n
    exact ih (fun d hd => h d (List.mem_cons_of_mem _ hd)) _ n
  | swap x y l =>
    intro h acc n
    have hx := h x (List.mem_cons_of_mem _ (List.mem_cons_self _ _))
    have hy := h y (List.mem_cons_self _ _)
    show mapGet (mergeAll (addResourceList (addResourceList acc y.1 y.2) x.1 x.2) l) n =
      mapGet (mergeAll (addResourceList (addResourceList acc x.1 x.2) y.1 y.2) l) n
    rw [hx.2, hy.2]
    exact mergeAll_congr l _ _
      (fun d hd => (h d (List.mem_cons_of_mem _ (List.mem_cons_of_mem _ hd))).1)
      (addResourceList_swap acc y.1 x.1 hy.1 hx.1) n
  | trans hp1 _ ih1 ih2 =>
    intro h acc n
    exact (ih1 h acc n).trans (ih2 (fun d hd => h d (hp1.mem_iff.mpr hd)) acc n)

/-- C22: addResourceList is order-sensitive across containers. Merging the container
that requests cpu 1 and then the container that limits cpu to 2 into the empty
accumulator gives cpu 1, the other order gives cpu 3; whereas when all limits are empty
the quantity of every resource name is the same for every order of the containers. -/
theorem addResourceList_order (acc ra rb : ResourceList)
    (l1 l2 : List (ResourceList × ResourceList)) (n : String) :
    (mapGet (mergeAll [] [requestsCpu1, limitsCpu2]) "cpu" = some 1 ∧
      mapGet (mergeAll [] [limitsCpu2, requestsCpu1]) "cpu" = some 3) ∧
    ((resourceNames ra).Nodup → (resourceNames rb).Nodup →
      mapGet (mergeAll acc [(ra, []), (rb, [])]) n =
        mapGet (mergeAll acc [(rb, []), (ra, [])]) n) ∧
    (l1.Perm l2 → (∀ c ∈ l1, (resourceNames c.1).Nodup ∧ c.2 = []) →
      mapGet (mergeAll acc l1) n = mapGet (mergeAll acc l2) n) := by
  refine ⟨⟨by decide, by decide⟩, ?_, ?_⟩
  · intro ha hb
    exact addResourceList_swap acc ra rb ha hb n
  · intro hp h
    exact mergeAll_perm l1 l2 hp h acc n

/-- C22 at two containers without limits, one requesting cpu 1 and one requesting cpu 2
and mem 4, merged into an accumulator that holds cpu 5: both orders give cpu 8. -/
theorem addResourceList_order_witness :
    (resourceNames requestsCpu1.1).Nodup ∧ (resourceNames requestsCpu2Mem4.1).Nodup ∧
    mapGet (mergeAll [("cpu", 5)] [requestsCpu1, requestsCpu2Mem4]) "cpu" = some 8 ∧
    mapGet (mergeAll [("cpu", 5)] [requestsCpu1, requestsCpu2Mem4]) "cpu" =
      mapGet (mergeAll [("cpu", 5)] [requestsCpu2Mem4, requestsCpu1]) "cpu" :=
  ⟨by decide, by decide, by decide,
    (addResourceList_order [("cpu", 5)] requestsCpu1.1 requestsCpu2Mem4.1 [] [] "cpu").2.1
      (by decide) (by decide)⟩

end Volcano

